import Mathlib

/-!
# item.show: date normalisation, cost amortisation, status and statistics

A shallow embedding of `src/script.js` (functions `parseDateFlexible`,
`calculateDailyCost`, `getItemStatus` and the accumulation loop of
`updateStatistics`), of the theme handlers of `src/theme.js` and of the theme pill
bridge of `src/lang.js`.

Modelling conventions.

* A JavaScript `Number` that is finite is the rational number it stands for (`ℚ`);
  `NaN` and the two infinities are separate constructors.  `toDouble x` is the Number
  nearest to the real `x` (IEEE 754 binary64, round to nearest, ties to even), and the
  operators `-`, `/`, `*` and `parseFloat` of `calculateDailyCost` and
  `updateStatistics` round their exact result with it (`jsSub`, `jsDiv`, `jsMul`,
  `Fixed2.parseFloat`).  The exponent of a Number is not bounded in the model:
  overflow to `Infinity` and subnormal numbers are left out.
* Left exact: the running sums `+=` of `updateStatistics`, the quotient under
  `Math.ceil` (`ceilDays`) and the product `n * 1000` of `parseDateFlexible`.
* A `Date` is its time value, an integer number of milliseconds since the Unix
  epoch; an invalid `Date` (time value `NaN`) is `none`.  The result of
  `parseDateFlexible` is `Option Int`, with `none` for the JavaScript `null`.
* `new Date()` (the wall clock) is an explicit parameter `now`.
* `item.price` and `item.soldPrice` are finite numbers (`item.soldPrice` may be
  missing); non-numeric prices are outside the model.  The theorems hold for every
  rational price, hence for every Number.
* The text `x.toFixed(2)` is represented by its sign and its number of
  hundredths (`Fixed2`); `Fixed2.text` renders it, `Fixed2.value` is the decimal number
  that it denotes and `Fixed2.parseFloat` the Number that `parseFloat` reads from it.
  The exponent form that `toFixed` switches to from 1e21 on is not modelled.
* `Date.parse` on a string is fixed by ECMAScript only for the date-time string
  format.  The date-only form `YYYY-MM-DD` with a valid calendar date is modelled
  concretely (UTC midnight); every other string is delegated to the host
  (`Host.legacyDateParse`), about which nothing is assumed.
* The calendar date of an instant is read in UTC (`calendarDate`).
* Event listeners run synchronously, in the order in which they were added; the
  page state they share is a record (`ThemePage`).
-/

namespace ItemShow

/-! ## JavaScript values -/

/-- A JavaScript `Number`. -/
inductive JsNumber where
  | fin (q : ℚ)
  | nan
  | inf (negative : Bool)

/-- A JavaScript value as it can occur in a date field of an item record. -/
inductive JsValue where
  | null
  | undefined
  | bool (b : Bool)
  | num (n : JsNumber)
  | str (s : String)
  | date (t : Option Int)

/-- The parts of the host environment that the script relies on. -/
structure Host where
  /-- Implementation-defined part of `Date.parse` (time value, `none` for `NaN`). -/
  legacyDateParse : String → Option Int

/-- `ToBoolean(v)`. -/
def JsValue.truthy : JsValue → Bool
  | .null => false
  | .undefined => false
  | .bool b => b
  | .num (.fin q) => decide (q ≠ 0)
  | .num .nan => false
  | .num (.inf _) => true
  | .str s => !s.toList.isEmpty
  | .date _ => true

/-- `v === 0`. -/
def JsValue.isZero : JsValue → Bool
  | .num (.fin q) => decide (q = 0)
  | _ => false

/-- `v === null`. -/
def JsValue.isNull : JsValue → Bool
  | .null => true
  | _ => false

/-- `v === "0"`. -/
def JsValue.isStrZero : JsValue → Bool
  | .str s => decide (s.toList = ['0'])
  | _ => false

/-! ## Dates -/

/-- `1000 * 3600 * 24`. -/
def msPerDay : Int := 1000 * 3600 * 24

/-- `ToIntegerOrInfinity` on a finite number: truncation towards zero. -/
def truncate (x : ℚ) : Int := if x < 0 then ⌈x⌉ else ⌊x⌋

/-- `TimeClip`: the time value of `new Date(x)` for a finite number `x`. -/
def timeClip (x : ℚ) : Option Int :=
  if |x| > 8640000000000000 then none else some (truncate x)

/-- Time value of `new Date(n)` for a `Number` `n`. -/
def dateOfNumber : JsNumber → Option Int
  | .fin q => timeClip q
  | .nan => none
  | .inf _ => none

/-- The expression `n > 1e11 ? n : n * 1000`. -/
def scaleTimestamp : JsNumber → JsNumber
  | .fin q => .fin (if q > 100000000000 then q else q * 1000)
  | .nan => .nan
  | .inf negative => .inf negative

/-- `\d` of a JavaScript regular expression. -/
def isAsciiDigit (c : Char) : Bool := decide (48 ≤ c.toNat) && decide (c.toNat ≤ 57)

/-- `/^\d+$/.test(s)`. -/
def isDigitString (cs : List Char) : Bool := !cs.isEmpty && cs.all isAsciiDigit

/-- Value of a string of decimal digits. -/
def digitsValue (cs : List Char) : Nat := cs.foldl (fun acc c => 10 * acc + (c.toNat - 48)) 0

/-- White space and line terminators removed by `String.prototype.trim`. -/
def isJsWhiteSpace (c : Char) : Bool :=
  let n := c.toNat
  decide (n = 9) || decide (n = 10) || decide (n = 11) || decide (n = 12) || decide (n = 13) ||
  decide (n = 32) || decide (n = 160) || decide (n = 5760) ||
  (decide (8192 ≤ n) && decide (n ≤ 8202)) ||
  decide (n = 8232) || decide (n = 8233) || decide (n = 8239) || decide (n = 8287) ||
  decide (n = 12288) || decide (n = 65279)

/-- `s.trim()`. -/
def jsTrim (cs : List Char) : List Char :=
  ((cs.dropWhile isJsWhiteSpace).reverse.dropWhile isJsWhiteSpace).reverse

/-- `s.replace(/[./]/g, "-")`. -/
def unifySeparators (cs : List Char) : List Char :=
  cs.map (fun c => if c = '.' ∨ c = '/' then '-' else c)

/-- Auxiliary loop of `splitDash`: `cur` is the current part, reversed. -/
def splitDashAux : List Char → List Char → List (List Char)
  | [], cur => [cur.reverse]
  | c :: cs, cur => if c = '-' then cur.reverse :: splitDashAux cs [] else splitDashAux cs (c :: cur)

/-- `s.split("-")`. -/
def splitDash (cs : List Char) : List (List Char) := splitDashAux cs []

/-- ECMAScript `DayFromYear(y)`. -/
def dayFromYear (y : Int) : Int :=
  365 * (y - 1970) + (y - 1969) / 4 - (y - 1901) / 100 + (y - 1601) / 400

/-- Leap years of the proleptic Gregorian calendar. -/
def isLeapYear (y : Int) : Bool :=
  (decide (y % 4 = 0) && !decide (y % 100 = 0)) || decide (y % 400 = 0)

/-- Number of days in month `m` (1 to 12) of year `y`; 0 for any other `m`. -/
def daysInMonth (y : Int) (m : Nat) : Nat :=
  match m with
  | 1 => 31 | 2 => if isLeapYear y then 29 else 28 | 3 => 31 | 4 => 30 | 5 => 31 | 6 => 30
  | 7 => 31 | 8 => 31 | 9 => 30 | 10 => 31 | 11 => 30 | 12 => 31
  | _ => 0

/-- Number of days of year `y` that precede the first day of month `m`. -/
def daysBeforeMonth (y : Int) (m : Nat) : Nat :=
  ((List.range (m - 1)).map (fun i => daysInMonth y (i + 1))).sum

/-- Day number (days since 1970-01-01) of the calendar date `y`-`m`-`d`. -/
def dayNumber (y : Int) (m d : Nat) : Int :=
  dayFromYear y + daysBeforeMonth y m + (d - 1 : Int)

/-- `Date.parse` on the date-only form `YYYY-MM-DD` of the ECMAScript date-time string
format, for a valid calendar date: midnight UTC of that day. -/
def isoDateOnly : List Char → Option Int
  | [y1, y2, y3, y4, s1, m1, m2, s2, d1, d2] =>
    if s1 = '-' ∧ s2 = '-' ∧ isDigitString [y1, y2, y3, y4, m1, m2, d1, d2] = true then
      let y : Int := digitsValue [y1, y2, y3, y4]
      let m := digitsValue [m1, m2]
      let d := digitsValue [d1, d2]
      if 1 ≤ d ∧ d ≤ daysInMonth y m then some (dayNumber y m d * msPerDay) else none
    else none
  | _ => none

/-- Time value of `new Date(s)` for a string `s`. -/
def dateOfString (host : Host) (cs : List Char) : Option Int :=
  match isoDateOnly cs with
  | some t => some t
  | none => host.legacyDateParse (String.mk cs)

/-- Time value of `new Date(v)` for an arbitrary value (the last statement of
`parseDateFlexible`). -/
def dateOfValue (host : Host) : JsValue → Option Int
  | .null => some 0
  | .undefined => none
  | .bool b => some (if b then 1 else 0)
  | .num n => dateOfNumber n
  | .str s => dateOfString host s.toList
  | .date t => t

/-- Function `parseDateFlexible(input)` of `script.js`. -/
def parseDateFlexible (host : Host) (input : JsValue) : Option Int :=
  if !input.truthy && !input.isZero then none
  else if input.isNull || input.isStrZero || input.isZero then none
  else
    match input with
    | .date t => t
    | .num n => dateOfNumber (scaleTimestamp n)
    | .str str =>
      if isDigitString str.toList then
        dateOfNumber (scaleTimestamp (.fin (digitsValue str.toList)))
      else
        let s := unifySeparators (jsTrim str.toList)
        let parts := splitDash s
        let normalized :=
          match parts with
          | [p0, p1] => p0 ++ ['-'] ++ p1 ++ ['-', '0', '1']
          | _ => s
        match dateOfString host normalized with
        | some d1 => some d1
        | none => dateOfString host (normalized ++ "T00:00:00".toList)
    | v => dateOfValue host v

/-! ## Numbers -/

/-- Rounding to the nearest integer, a tie going to the even one. -/
def roundHalfEven (x : ℚ) : ℤ :=
  if x - ⌊x⌋ < 1 / 2 then ⌊x⌋
  else if 1 / 2 < x - ⌊x⌋ then ⌊x⌋ + 1
  else if ⌊x⌋ % 2 = 0 then ⌊x⌋ else ⌊x⌋ + 1

/-- The Number (IEEE 754 binary64 value) nearest to the real number `x`, a tie going to
the even significand: `x` is scaled so that it lies between `2^52` and `2^53`, rounded to
an integer and scaled back.  The exponent is not bounded. -/
def toDouble (x : ℚ) : ℚ :=
  (roundHalfEven (x / 2 ^ (Int.log 2 |x| - 52)) : ℚ) * 2 ^ (Int.log 2 |x| - 52)

/-- The operator `a - b` on Numbers. -/
def jsSub (a b : ℚ) : ℚ := toDouble (a - b)

/-- The operator `a * b` on Numbers. -/
def jsMul (a b : ℚ) : ℚ := toDouble (a * b)

/-- The operator `a / b` on Numbers, for a divisor other than zero. -/
def jsDiv (a b : ℚ) : ℚ := toDouble (a / b)

/-! ## Two-decimal texts -/

/-- The text produced by `x.toFixed(2)`: an optional minus sign and a number of
hundredths. -/
structure Fixed2 where
  negative : Bool
  cents : Nat
  deriving DecidableEq, Repr

/-- The literal `"0.00"`. -/
def Fixed2.zero : Fixed2 := ⟨false, 0⟩

/-- `Number.prototype.toFixed` with 2 digits, applied to the Number `x`: the sign is
split off, then the integer `n` with `n / 100` closest to the magnitude of `x` itself is
taken, the larger one on a tie. -/
def toFixed2 (x : ℚ) : Fixed2 :=
  if x < 0 then ⟨true, ⌊-x * 100 + 1 / 2⌋.toNat⟩ else ⟨false, ⌊x * 100 + 1 / 2⌋.toNat⟩

/-- The decimal number that a two-decimal text denotes. -/
def Fixed2.value (f : Fixed2) : ℚ :=
  if f.negative then -((f.cents : ℚ) / 100) else (f.cents : ℚ) / 100

/-- `parseFloat` on a two-decimal text: the Number nearest to the decimal number that
the text denotes. -/
def Fixed2.parseFloat (f : Fixed2) : ℚ := toDouble f.value

/-- Decimal digits of a natural number, most significant first (`fuel` bounds the
number of digits). -/
def natDigits : Nat → Nat → List Char
  | 0, _ => []
  | fuel + 1, n =>
    if n < 10 then [Char.ofNat (48 + n)]
    else natDigits fuel (n / 10) ++ [Char.ofNat (48 + n % 10)]

/-- The characters of a two-decimal text. -/
def Fixed2.text (f : Fixed2) : String :=
  String.mk ((if f.negative then ['-'] else []) ++ natDigits (f.cents + 1) (f.cents / 100) ++
    ['.', Char.ofNat (48 + f.cents / 10 % 10), Char.ofNat (48 + f.cents % 10)])

/-! ## Items and cost records -/

/-- An item record; the display-only fields `name`, `category` and `notes` are not
read by the functions below and are left out.  `soldPrice` is `none` when the
field is missing. -/
structure Item where
  price : ℚ
  soldPrice : Option ℚ
  purchaseDate : JsValue
  warrantyDate : JsValue
  retirementDate : JsValue

/-- The test `if (item.soldPrice)`: the field is there and is not zero. -/
def Item.sold (item : Item) : Bool :=
  match item.soldPrice with
  | some s => decide (s ≠ 0)
  | none => false

/-- The value of `item.soldPrice` where the script subtracts it. -/
def Item.soldValue (item : Item) : ℚ := item.soldPrice.getD 0

/-- The field `totalDays` of a cost record: a number of days or `Infinity`. -/
inductive TotalDays where
  | infinity
  | finite (n : Int)
  deriving DecidableEq, Repr

/-- The object returned by `calculateDailyCost`; a missing or `null`
`originalDailyCost` is `none`. -/
structure CostRecord where
  dailyCost : Fixed2
  originalDailyCost : Option Fixed2
  totalDays : TotalDays
  daysUsed : Int
  consumedValue : Fixed2
  deriving DecidableEq, Repr

/-- `Math.ceil(ms / (1000 * 3600 * 24))`. -/
def ceilDays (ms : Int) : Int := ⌈(ms : ℚ) / (msPerDay : ℚ)⌉

/-- The expression `item.retirementDate === null || item.retirementDate === 0 ||
item.retirementDate === "0" || !parsedRetirementDate`. -/
def noRetirement (item : Item) (parsedRetirementDate : Option Int) : Bool :=
  item.retirementDate.isNull || item.retirementDate.isZero || item.retirementDate.isStrZero ||
    parsedRetirementDate.isNone

/-- Function `calculateDailyCost(item)` of `script.js`, with the clock as `now`. -/
def calculateDailyCost (host : Host) (now : Int) (item : Item) : CostRecord :=
  match parseDateFlexible host item.purchaseDate with
  | none => ⟨Fixed2.zero, none, .finite 0, 0, Fixed2.zero⟩
  | some purchaseDate =>
    let parsedRetirementDate := parseDateFlexible host item.retirementDate
    let isIndefiniteUse := noRetirement item parsedRetirementDate
    match isIndefiniteUse, parsedRetirementDate with
    | false, some retirementDate =>
      let daysUsed := max 0 (ceilDays (retirementDate - purchaseDate))
      let totalDaysLifeSpan := ceilDays (retirementDate - purchaseDate)
      let netCost := if item.sold then jsSub item.price item.soldValue else item.price
      if totalDaysLifeSpan ≤ 0 then
        ⟨Fixed2.zero, if item.sold then some Fixed2.zero else none, .finite totalDaysLifeSpan,
          daysUsed, toFixed2 netCost⟩
      else
        let dailyCost := toFixed2 (jsDiv netCost totalDaysLifeSpan)
        ⟨dailyCost,
          if item.sold then some (toFixed2 (jsDiv item.price totalDaysLifeSpan)) else none,
          .finite totalDaysLifeSpan, daysUsed,
          toFixed2 (min netCost (jsMul dailyCost.parseFloat daysUsed))⟩
    | _, _ =>
      let daysUsed := max 0 (ceilDays (now - purchaseDate))
      let dailyCost := if daysUsed > 0 then toFixed2 (jsDiv item.price daysUsed) else Fixed2.zero
      let consumedValue := toFixed2 (jsMul dailyCost.parseFloat daysUsed)
      ⟨dailyCost, none, .infinity, daysUsed, toFixed2 (min item.price consumedValue.parseFloat)⟩

/-! ## Status -/

/-- The entries of the translation table `t()` of `lang.js` read by `getItemStatus`. -/
structure Dict where
  statusRetired : String
  statusActive : String
  statusExpired : String
  statusExpiring : Int → String

/-- The object returned by `getItemStatus`; `className` is its field `class`. -/
structure ItemStatus where
  text : String
  className : String
  deriving DecidableEq, Repr

/-- The comparison `parsedRetirementDate <= today`, in which `null` converts to 0. -/
def notAfter (parsedRetirementDate : Option Int) (today : Int) : Bool :=
  match parsedRetirementDate with
  | some r => decide (r ≤ today)
  | none => decide (0 ≤ today)

/-- Function `getItemStatus(item)` of `script.js`, with the clock as `today` and the
result of `typeof t === "function" ? t() : null` as `dict`. -/
def getItemStatus (host : Host) (dict : Option Dict) (today : Int) (item : Item) : ItemStatus :=
  let parsedRetirementDate := parseDateFlexible host item.retirementDate
  let isRetired := !noRetirement item parsedRetirementDate
  if isRetired && notAfter parsedRetirementDate today then
    ⟨match dict with | some d => d.statusRetired | none => "已退役", "retired-tag"⟩
  else
    match parseDateFlexible host item.warrantyDate with
    | none => ⟨match dict with | some d => d.statusActive | none => "使用中", "active-tag"⟩
    | some warrantyDate =>
      let daysToWarranty := ceilDays (warrantyDate - today)
      if warrantyDate < today then
        ⟨match dict with | some d => d.statusExpired | none => "已过保", "expired-tag"⟩
      else if daysToWarranty ≤ 30 ∧ daysToWarranty > 0 then
        ⟨match dict with
          | some d => d.statusExpiring daysToWarranty
          | none => "保修即将到期 (" ++ toString daysToWarranty ++ "天)", "expiring-tag"⟩
      else ⟨match dict with | some d => d.statusActive | none => "使用中", "active-tag"⟩

/-! ## Statistics -/

/-- The values stored by `updateStatistics` in `globalTotalValue`, `globalTotalItems`
and `globalAvgDailyCost`. -/
structure Statistics where
  globalTotalValue : ℚ
  globalTotalItems : Nat
  globalAvgDailyCost : ℚ

/-- One call of the `items.forEach` callback of `updateStatistics`, on the pair of
accumulators `(totalValue, totalDailyCost)`. -/
def statisticsStep (host : Host) (now : Int) (currentCalcMode : Nat) (acc : ℚ × ℚ)
    (item : Item) : ℚ × ℚ :=
  let parsedRetirementDate := parseDateFlexible host item.retirementDate
  let isRetired := !noRetirement item parsedRetirementDate
  if decide (currentCalcMode = 1) && isRetired then acc
  else
    let totalValue :=
      if currentCalcMode = 2 then
        if item.sold then acc.1 + jsSub item.price item.soldValue else acc.1 + item.price
      else acc.1 + item.price
    let cost := calculateDailyCost host now item
    (totalValue, acc.2 + cost.dailyCost.parseFloat)

/-- The accumulation part of `updateStatistics()` of `script.js`. -/
def updateStatistics (host : Host) (now : Int) (currentCalcMode : Nat) (items : List Item) :
    Statistics :=
  let totals := items.foldl (statisticsStep host now currentCalcMode) (0, 0)
  ⟨totals.1, items.length, totals.2⟩

/-! ## Sample data and specification-side definitions -/

/-- A host whose implementation-defined date parser rejects every string. -/
def strictHost : Host := ⟨fun _ => none⟩

/-- An item bought at the epoch for 0.0078125 (the Number `2^-7`) and still in use. -/
def subCentItem : Item := ⟨1 / 128, none, .date (some 0), .null, .null⟩

/-- The item of the first end-to-end example of the specification. -/
def exampleOpenItem : Item := ⟨1200, none, .str "2024-01-01", .null, .null⟩

/-- The item of the second end-to-end example of the specification. -/
def exampleSoldItem : Item := ⟨1000, some 400, .str "2023-01-01", .null, .str "2023-04-01"⟩

/-- The instant 2024-01-31T00:00:00Z. -/
def jan31of2024 : Int := 1706659200000

/-- An item retired one second after the epoch whose warranty ended at the epoch. -/
def retiredOutOfWarranty : Item := ⟨500, none, .date (some 0), .date (some 0), .date (some 1000)⟩

/-- An item in use whose warranty ends exactly one day after the epoch. -/
def warrantyEndsNow : Item := ⟨500, none, .date (some 0), .date (some 86400000), .null⟩

/-- An item in use whose warranty ends exactly thirty days after the epoch. -/
def warrantyInThirtyDays : Item := ⟨500, none, .date (some 0), .date (some 2592000000), .null⟩

/-- An item bought at the epoch for 201 and still in use. -/
def halfCentItem : Item := ⟨201, none, .date (some 0), .null, .null⟩

/-- An item bought at the epoch for 1003 and sold for 1000 two hundred days later. -/
def halfCentSoldItem : Item :=
  ⟨1003, some 1000, .date (some 0), .null, .date (some 17280000000)⟩

/-- The items that the `forEach` callback of `updateStatistics` does not skip. -/
def counted (host : Host) (currentCalcMode : Nat) (item : Item) : Bool :=
  !(decide (currentCalcMode = 1) &&
    !noRetirement item (parseDateFlexible host item.retirementDate))

/-- The sold item of the second end-to-end example, with a sale price of zero. -/
def soldForNothing : Item := ⟨1000, some 0, .str "2023-01-01", .null, .str "2023-04-01"⟩

/-- Net cost as the specification words it: `price − soldPrice` when `soldPrice` is
present, `price` otherwise; the difference is the Number `price - soldPrice`, which for
a sale price of zero is the price itself. -/
def specNetCost (item : Item) : ℚ :=
  match item.soldPrice with
  | some s => if s = 0 then item.price else jsSub item.price s
  | none => item.price

/-- An item bought and retired at the epoch, for the price 0.0009765625 (the Number
`2^-10`). -/
def sameDayItem : Item := ⟨1 / 1024, none, .date (some 0), .null, .date (some 0)⟩

/-- An item bought for 250 and sold for 100 on the day of its purchase. -/
def resoldAtOnce : Item := ⟨250, some 100, .date (some 0), .null, .date (some 0)⟩

/-- An item without purchase date, sold, with warranty and retirement dates. -/
def undatedItem : Item :=
  ⟨999, some 100, .str "", .str "2030-01-01", .str "2024-06-30"⟩

/-- An item bought for 100 and sold for 150 ten days later. -/
def soldAtProfit : Item := ⟨100, some 150, .date (some 0), .null, .date (some 864000000)⟩

/-- An item in use, under warranty until day 100, with a retirement planned for day 50. -/
def retiresLater : Item :=
  ⟨800, none, .date (some 0), .date (some 8640000000), .date (some 4320000000)⟩

/-- The amount that the `forEach` callback of `updateStatistics` adds to `totalValue`
for an item it does not skip. -/
def valueAdded (currentCalcMode : Nat) (item : Item) : ℚ :=
  if currentCalcMode = 2 then
    if item.sold then jsSub item.price item.soldValue else item.price
  else item.price

/-! ## Theme switching (`theme.js` and the theme pill bridge of `lang.js`)

The page is one on which `#themeSwitcher`, `#themeToggle` and `#langSwitcher` all exist,
so that every `if (sel)`, `if (pill)` and `if (themeSelect && themePill)` test succeeds.
The text and the class list of the pill are functions of its `dataset.mode` and are left
out. -/

/-- The state read and written by the theme handlers. -/
structure ThemePage where
  /-- The `localStorage` item `appTheme` (`none` when it is not set). -/
  appTheme : Option String
  /-- The values of the options of the select `#themeSwitcher`. -/
  selectOptions : List String
  /-- The value of the select `#themeSwitcher`. -/
  selectValue : String
  /-- The entry `dataset.mode` of the pill `#themeToggle`. -/
  pillMode : String
  /-- The entry `dataset.theme` of the document root. -/
  rootTheme : Option String
  /-- The result of `DARK_MQ.matches`. -/
  prefersDark : Bool
  deriving DecidableEq, Repr

/-- The array `cycle` of both click handlers. -/
def cycle : List String := ["auto", "light", "dark"]

/-- Loop of `indexOf`: position of `x` from index `i` on, `-1` when it is missing. -/
def indexOfFrom (x : String) : List String → Int → Int
  | [], _ => -1
  | y :: ys, i => if y = x then i else indexOfFrom x ys (i + 1)

/-- The expression `cycle[(cycle.indexOf(mode) + 1) % cycle.length]`. -/
def cycleNext (mode : String) : String :=
  (cycle[((indexOfFrom mode cycle 0 + 1) % (cycle.length : Int)).toNat]?).getD "undefined"

/-- Function `getStoredTheme()` of `theme.js`. -/
def getStoredTheme (page : ThemePage) : String :=
  match page.appTheme with
  | some v => if v = "light" ∨ v = "dark" ∨ v = "auto" then v else "auto"
  | none => "auto"

/-- Function `setStoredTheme(mode)` of `theme.js`. -/
def setStoredTheme (mode : String) (page : ThemePage) : ThemePage :=
  { page with appTheme := some mode }

/-- Function `resolveEffectiveTheme(mode)` of `theme.js`. -/
def resolveEffectiveTheme (mode : String) (page : ThemePage) : String :=
  if mode = "dark" then "dark"
  else if mode = "light" then "light"
  else if page.prefersDark then "dark" else "light"

/-- The assignment `sel.value = v`: a select takes a value only if one of its options
carries it, and is left without selection (value `""`) otherwise. -/
def setSelectValue (v : String) (page : ThemePage) : ThemePage :=
  { page with selectValue := if v ∈ page.selectOptions then v else "" }

/-- Function `applyThemePill(mode)` of `lang.js`. -/
def applyThemePill (mode : String) (page : ThemePage) : ThemePage :=
  { page with pillMode := mode }

/-- Function `decorateSwitcher(mode, effective)` of `theme.js`. -/
def decorateSwitcher (mode : String) (page : ThemePage) : ThemePage :=
  { setSelectValue mode page with pillMode := mode }

/-- Function `applyTheme(mode)` of `theme.js`, followed by the `themeChanged` listener of
`lang.js`, which the dispatch at its end runs. -/
def applyTheme (mode : String) (page : ThemePage) : ThemePage :=
  let effective := resolveEffectiveTheme mode page
  let page1 := { page with rootTheme := if effective = "dark" then some "dark" else none }
  let page2 := decorateSwitcher mode page1
  if mode = "" then page2 else applyThemePill mode page2

/-- The `change` listener that `initTheme` puts on the select. -/
def onSelectChange (page : ThemePage) : ThemePage :=
  let mode := page.selectValue
  if mode ≠ "auto" ∧ mode ≠ "light" ∧ mode ≠ "dark" then page
  else applyTheme mode (setStoredTheme mode page)

/-- The `click` listener that `initTheme` (`theme.js`) puts on the pill. -/
def onPillClickTheme (page : ThemePage) : ThemePage :=
  let next := cycleNext (getStoredTheme page)
  applyTheme next (setStoredTheme next page)

/-- The `click` listener that `initLang` (`lang.js`) puts on the pill; its
`dispatchEvent(new Event("change"))` runs the `change` listener of the select. -/
def onPillClickLang (page : ThemePage) : ThemePage :=
  let next := cycleNext page.selectValue
  onSelectChange (applyThemePill next (setSelectValue next page))

/-- The state changes of `initTheme()`: `syncSelect(stored)` and `applyTheme(stored)`. -/
def initTheme (page : ThemePage) : ThemePage :=
  let stored := getStoredTheme page
  applyTheme stored (setSelectValue stored page)

/-- The state change of the theme pill bridge in `initLang()`:
`applyThemePill(themeSelect.value)`. -/
def initLang (page : ThemePage) : ThemePage :=
  applyThemePill page.selectValue page

/-- Both scripts have run; `langFirst` tells whether `lang.js` ran before `theme.js`. -/
def pageLoaded (langFirst : Bool) (page : ThemePage) : ThemePage :=
  if langFirst then initTheme (initLang page) else initLang (initTheme page)

/-- One click on the pill: the two `click` listeners run in the order in which they
were added. -/
def clickThemePill (langFirst : Bool) (page : ThemePage) : ThemePage :=
  if langFirst then onPillClickTheme (onPillClickLang page)
  else onPillClickLang (onPillClickTheme page)

/-- A freshly served page: select on its first option, the stored mode as given. -/
def freshPage (stored : Option String) (prefersDark : Bool) : ThemePage :=
  ⟨stored, cycle, "auto", "", none, prefersDark⟩

/-! ## Calendar date of an instant (ECMAScript `YearFromTime`, `MonthFromTime`,
`DateFromTime`, in UTC) -/

/-- The year that holds day number `n`: the `y` with `dayFromYear y ≤ n <
dayFromYear (y + 1)`, found from an estimate that is off by at most one. -/
def yearFromDay (n : Int) : Int :=
  let y0 := 1970 + (400 * n) / 146097
  if n < dayFromYear y0 then y0 - 1
  else if dayFromYear (y0 + 1) ≤ n then y0 + 1
  else y0

/-- Month (1 to 12) and day of the month of the day `k` (from 0) of a year, after the
tables of `MonthFromTime` and `DateFromTime`. -/
def monthAndDay (leap : Bool) (k : Int) : Nat × Nat :=
  let l : Int := if leap then 1 else 0
  if k < 31 then (1, (k + 1).toNat)
  else if k < 59 + l then (2, (k - 30).toNat)
  else if k < 90 + l then (3, (k - 58 - l).toNat)
  else if k < 120 + l then (4, (k - 89 - l).toNat)
  else if k < 151 + l then (5, (k - 119 - l).toNat)
  else if k < 181 + l then (6, (k - 150 - l).toNat)
  else if k < 212 + l then (7, (k - 180 - l).toNat)
  else if k < 243 + l then (8, (k - 211 - l).toNat)
  else if k < 273 + l then (9, (k - 242 - l).toNat)
  else if k < 304 + l then (10, (k - 272 - l).toNat)
  else if k < 334 + l then (11, (k - 303 - l).toNat)
  else (12, (k - 333 - l).toNat)

/-- Year, month and day of the month, in UTC, of the instant `t`. -/
def calendarDate (t : Int) : Int × Nat × Nat :=
  let n := t / msPerDay
  let y := yearFromDay n
  (y, monthAndDay (isLeapYear y) (n - dayFromYear y))

/-! ## Lemmas on Numbers -/

theorem roundHalfEven_le (x : ℚ) : (roundHalfEven x : ℚ) ≤ x + 1 / 2 := by
  unfold roundHalfEven
  have h1 := Int.floor_le x
  have h2 := Int.lt_floor_add_one x
  split_ifs <;> push_cast <;> linarith

theorem le_roundHalfEven (x : ℚ) : x - 1 / 2 ≤ (roundHalfEven x : ℚ) := by
  unfold roundHalfEven
  have h1 := Int.floor_le x
  have h2 := Int.lt_floor_add_one x
  split_ifs <;> push_cast <;> linarith

theorem roundHalfEven_intCast (k : ℤ) : roundHalfEven (k : ℚ) = k := by
  unfold roundHalfEven
  simp

theorem roundHalfEven_mono {x y : ℚ} (h : x ≤ y) : roundHalfEven x ≤ roundHalfEven y := by
  by_cases hf : ⌊x⌋ = ⌊y⌋
  · unfold roundHalfEven
    rw [hf]
    split_ifs <;> first | omega | (exfalso; linarith)
  · have hlt : ⌊x⌋ < ⌊y⌋ := lt_of_le_of_ne (Int.floor_mono h) hf
    have hx : roundHalfEven x ≤ ⌊x⌋ + 1 := by
      unfold roundHalfEven
      split_ifs <;> omega
    have hy : ⌊y⌋ ≤ roundHalfEven y := by
      unfold roundHalfEven
      split_ifs <;> omega
    omega

theorem roundHalfEven_eq_of_abs_lt {x : ℚ} {m : ℤ} (h : |x - m| < 1 / 2) : roundHalfEven x = m := by
  rw [abs_lt] at h
  have hfl : ⌊x⌋ = m ∨ ⌊x⌋ = m - 1 := by
    have h1 : m - 1 ≤ ⌊x⌋ := Int.le_floor.mpr (by push_cast; linarith)
    have h2 : ⌊x⌋ < m + 1 := Int.floor_lt.mpr (by push_cast; linarith)
    omega
  unfold roundHalfEven
  rcases hfl with hf | hf
  · rw [hf]
    have : x - (m : ℚ) < 1 / 2 := by linarith
    rw [if_pos this]
  · rw [hf]
    have h1 : ¬ x - ((m - 1 : ℤ) : ℚ) < 1 / 2 := by push_cast; linarith
    have h2 : 1 / 2 < x - ((m - 1 : ℤ) : ℚ) := by push_cast; linarith
    rw [if_neg h1, if_pos h2]
    ring

theorem ulp_pos (x : ℚ) : (0 : ℚ) < 2 ^ (Int.log 2 |x| - 52) := by positivity

theorem toDouble_zero : toDouble 0 = 0 := by
  unfold toDouble
  simp [roundHalfEven]

theorem toDouble_nonneg {x : ℚ} (hx : 0 ≤ x) : 0 ≤ toDouble x := by
  unfold toDouble
  have h0 : (0 : ℤ) ≤ roundHalfEven (x / 2 ^ (Int.log 2 |x| - 52)) := by
    have h := roundHalfEven_mono (div_nonneg hx (le_of_lt (ulp_pos x)))
    rw [show ((0 : ℚ)) = ((0 : ℤ) : ℚ) by norm_num, roundHalfEven_intCast] at h
    exact h
  exact mul_nonneg (by exact_mod_cast h0) (le_of_lt (ulp_pos x))

theorem toDouble_nonpos {x : ℚ} (hx : x ≤ 0) : toDouble x ≤ 0 := by
  unfold toDouble
  have h0 : roundHalfEven (x / 2 ^ (Int.log 2 |x| - 52)) ≤ (0 : ℤ) := by
    have h := roundHalfEven_mono (div_nonpos_of_nonpos_of_nonneg hx (le_of_lt (ulp_pos x)))
    rw [show ((0 : ℚ)) = ((0 : ℤ) : ℚ) by norm_num, roundHalfEven_intCast] at h
    exact h
  exact mul_nonpos_of_nonpos_of_nonneg (by exact_mod_cast h0) (le_of_lt (ulp_pos x))

theorem scaled_bounds {x : ℚ} (hx : 0 < x) :
    (2 : ℚ) ^ (52 : ℤ) ≤ x / 2 ^ (Int.log 2 |x| - 52) ∧
      x / 2 ^ (Int.log 2 |x| - 52) < (2 : ℚ) ^ (53 : ℤ) := by
  rw [abs_of_pos hx]
  have h1 : ((2 : ℕ) : ℚ) ^ Int.log 2 x ≤ x := Int.zpow_log_le_self (by norm_num) hx
  have h2 : x < ((2 : ℕ) : ℚ) ^ (Int.log 2 x + 1) := Int.lt_zpow_succ_log_self (by norm_num) x
  have hu : (0 : ℚ) < 2 ^ (Int.log 2 x - 52) := by positivity
  have e1 : (2 : ℚ) ^ (52 : ℤ) * 2 ^ (Int.log 2 x - 52) = 2 ^ Int.log 2 x := by
    rw [← zpow_add₀ (by norm_num : (2 : ℚ) ≠ 0)]
    congr 1
    ring
  have e2 : (2 : ℚ) ^ (53 : ℤ) * 2 ^ (Int.log 2 x - 52) = 2 ^ (Int.log 2 x + 1) := by
    rw [← zpow_add₀ (by norm_num : (2 : ℚ) ≠ 0)]
    congr 1
    ring
  push_cast at h1 h2
  constructor
  · rw [le_div_iff₀ hu, e1]
    exact h1
  · rw [div_lt_iff₀ hu, e2]
    exact h2

theorem toDouble_bounds {x : ℚ} (hx : 0 < x) :
    (2 : ℚ) ^ Int.log 2 x ≤ toDouble x ∧ toDouble x ≤ (2 : ℚ) ^ (Int.log 2 x + 1) := by
  obtain ⟨h1, h2⟩ := scaled_bounds hx
  have hu := ulp_pos x
  have r1 : ((2 : ℤ) ^ (52 : ℕ) : ℤ) ≤ roundHalfEven (x / 2 ^ (Int.log 2 |x| - 52)) := by
    have h := roundHalfEven_mono h1
    rw [show ((2 : ℚ) ^ (52 : ℤ)) = (((2 : ℤ) ^ (52 : ℕ) : ℤ) : ℚ) by norm_num,
      roundHalfEven_intCast] at h
    exact h
  have r2 : roundHalfEven (x / 2 ^ (Int.log 2 |x| - 52)) ≤ ((2 : ℤ) ^ (53 : ℕ) : ℤ) := by
    have h := roundHalfEven_mono (le_of_lt h2)
    rw [show ((2 : ℚ) ^ (53 : ℤ)) = (((2 : ℤ) ^ (53 : ℕ) : ℤ) : ℚ) by norm_num,
      roundHalfEven_intCast] at h
    exact h
  have q1 : ((2 : ℚ) ^ (52 : ℤ)) ≤ (roundHalfEven (x / 2 ^ (Int.log 2 |x| - 52)) : ℚ) := by
    have : (((2 : ℤ) ^ (52 : ℕ) : ℤ) : ℚ) ≤ (roundHalfEven (x / 2 ^ (Int.log 2 |x| - 52)) : ℚ) := by
      exact_mod_cast r1
    norm_num at this ⊢
    exact this
  have q2 : (roundHalfEven (x / 2 ^ (Int.log 2 |x| - 52)) : ℚ) ≤ ((2 : ℚ) ^ (53 : ℤ)) := by
    have : (roundHalfEven (x / 2 ^ (Int.log 2 |x| - 52)) : ℚ) ≤ (((2 : ℤ) ^ (53 : ℕ) : ℤ) : ℚ) := by
      exact_mod_cast r2
    norm_num at this ⊢
    exact this
  have e1 : (2 : ℚ) ^ (52 : ℤ) * 2 ^ (Int.log 2 |x| - 52) = 2 ^ Int.log 2 x := by
    rw [abs_of_pos hx, ← zpow_add₀ (by norm_num : (2 : ℚ) ≠ 0)]
    congr 1
    ring
  have e2 : (2 : ℚ) ^ (53 : ℤ) * 2 ^ (Int.log 2 |x| - 52) = 2 ^ (Int.log 2 x + 1) := by
    rw [abs_of_pos hx, ← zpow_add₀ (by norm_num : (2 : ℚ) ≠ 0)]
    congr 1
    ring
  unfold toDouble
  constructor
  · rw [← e1]
    exact mul_le_mul_of_nonneg_right q1 (le_of_lt hu)
  · rw [← e2]
    exact mul_le_mul_of_nonneg_right q2 (le_of_lt hu)

theorem toDouble_pos {x : ℚ} (hx : 0 < x) : 0 < toDouble x :=
  lt_of_lt_of_le (by positivity) (toDouble_bounds hx).1

theorem toDouble_mono_of_pos {x y : ℚ} (hx : 0 < x) (hxy : x ≤ y) : toDouble x ≤ toDouble y := by
  have hy : 0 < y := lt_of_lt_of_le hx hxy
  have hlog : Int.log 2 x ≤ Int.log 2 y := Int.log_mono_right hx hxy
  rcases eq_or_lt_of_le hlog with he | hl
  · unfold toDouble
    rw [abs_of_pos hx, abs_of_pos hy, he]
    have hu : (0 : ℚ) < 2 ^ (Int.log 2 y - 52) := by positivity
    have hr := roundHalfEven_mono (div_le_div_of_nonneg_right hxy (le_of_lt hu))
    exact mul_le_mul_of_nonneg_right (by exact_mod_cast hr) (le_of_lt hu)
  · have h1 := (toDouble_bounds hx).2
    have h2 := (toDouble_bounds hy).1
    have h3 : (2 : ℚ) ^ (Int.log 2 x + 1) ≤ 2 ^ Int.log 2 y :=
      zpow_le_zpow_right₀ (by norm_num) (by omega)
    linarith

theorem toDouble_mono {x y : ℚ} (hxy : x ≤ y) (hx : 0 ≤ x) : toDouble x ≤ toDouble y := by
  rcases eq_or_lt_of_le hx with h0 | hpos
  · rw [← h0, toDouble_zero]
    exact toDouble_nonneg (le_trans hx hxy)
  · exact toDouble_mono_of_pos hpos hxy

theorem toDouble_error (x : ℚ) :
    |toDouble x - x| ≤ 2 ^ (Int.log 2 |x| - 52) / 2 := by
  have hu := ulp_pos x
  have h1 := roundHalfEven_le (x / 2 ^ (Int.log 2 |x| - 52))
  have h2 := le_roundHalfEven (x / 2 ^ (Int.log 2 |x| - 52))
  have hx : x = x / 2 ^ (Int.log 2 |x| - 52) * 2 ^ (Int.log 2 |x| - 52) := by
    field_simp
  unfold toDouble
  rw [abs_le]
  constructor
  · nlinarith
  · nlinarith

theorem toDouble_error_rel {x : ℚ} (hx : 0 < x) :
    |toDouble x - x| ≤ x / 2 ^ (53 : ℕ) := by
  have h := toDouble_error x
  have h1 : ((2 : ℕ) : ℚ) ^ Int.log 2 x ≤ x := Int.zpow_log_le_self (by norm_num) hx
  have e1 : (2 : ℚ) ^ (Int.log 2 |x| - 52) / 2 = 2 ^ Int.log 2 x / 2 ^ (53 : ℕ) := by
    rw [abs_of_pos hx, zpow_sub₀ (by norm_num : (2 : ℚ) ≠ 0)]
    norm_num
    ring
  rw [e1] at h
  push_cast at h1
  have : (2 : ℚ) ^ Int.log 2 x / 2 ^ (53 : ℕ) ≤ x / 2 ^ (53 : ℕ) :=
    div_le_div_of_nonneg_right h1 (by positivity)
  linarith

theorem toDouble_error_abs (x : ℚ) : |toDouble x - x| ≤ |x| / 2 ^ (53 : ℕ) := by
  by_cases h0 : x = 0
  · rw [h0, toDouble_zero]
    simp
  have habs : 0 < |x| := abs_pos.mpr h0
  have h := toDouble_error x
  have h1 : ((2 : ℕ) : ℚ) ^ Int.log 2 |x| ≤ |x| := Int.zpow_log_le_self (by norm_num) habs
  have e1 : (2 : ℚ) ^ (Int.log 2 |x| - 52) / 2 = 2 ^ Int.log 2 |x| / 2 ^ (53 : ℕ) := by
    rw [zpow_sub₀ (by norm_num : (2 : ℚ) ≠ 0)]
    norm_num
    ring
  rw [e1] at h
  push_cast at h1
  have : (2 : ℚ) ^ Int.log 2 |x| / 2 ^ (53 : ℕ) ≤ |x| / 2 ^ (53 : ℕ) :=
    div_le_div_of_nonneg_right h1 (by positivity)
  linarith

theorem log_eq_of {x : ℚ} {L : ℤ} (hx : 0 < x) (h1 : (2 : ℚ) ^ L ≤ x) (h2 : x < (2 : ℚ) ^ (L + 1)) :
    Int.log 2 x = L := by
  have a : L ≤ Int.log 2 x := by
    rw [← Int.zpow_le_iff_le_log (by norm_num) hx]
    exact_mod_cast h1
  have b : Int.log 2 x < L + 1 := by
    rw [← Int.lt_zpow_iff_log_lt (by norm_num) hx]
    exact_mod_cast h2
  omega

theorem toDouble_eq_of {x : ℚ} (L m : ℤ) (hx : 0 < x) (h1 : (2 : ℚ) ^ L ≤ x)
    (h2 : x < (2 : ℚ) ^ (L + 1)) (hm : |x / 2 ^ (L - 52) - m| < 1 / 2) :
    toDouble x = m * 2 ^ (L - 52) := by
  unfold toDouble
  rw [abs_of_pos hx, log_eq_of hx h1 h2, roundHalfEven_eq_of_abs_lt hm]

theorem toDouble_intCast (n : ℤ) (hn : |n| < 2 ^ 53) : toDouble (n : ℚ) = n := by
  by_cases h0 : n = 0
  · rw [h0]
    simpa using toDouble_zero
  have habs : (0 : ℚ) < |(n : ℚ)| := abs_pos.mpr (by exact_mod_cast h0)
  have hlt : |(n : ℚ)| < ((2 : ℕ) : ℚ) ^ (53 : ℤ) := by
    have : ((|n| : ℤ) : ℚ) < (((2 : ℤ) ^ 53 : ℤ) : ℚ) := by exact_mod_cast hn
    rw [Int.cast_abs] at this
    norm_num at this ⊢
    exact this
  have hlog : Int.log 2 |(n : ℚ)| < 53 := (Int.lt_zpow_iff_log_lt (by norm_num) habs).mp hlt
  obtain ⟨k, hk⟩ : ∃ k : ℕ, Int.log 2 |(n : ℚ)| - 52 = -(k : ℤ) :=
    ⟨(52 - Int.log 2 |(n : ℚ)|).toNat, by omega⟩
  unfold toDouble
  rw [hk, zpow_neg, zpow_natCast, div_inv_eq_mul]
  have : (n : ℚ) * 2 ^ k = ((n * 2 ^ k : ℤ) : ℚ) := by push_cast; ring
  rw [this, roundHalfEven_intCast]
  push_cast
  field_simp

/-! ## Lemmas on two-decimal texts -/

theorem toFixed2_of_nonneg {x : ℚ} (hx : 0 ≤ x) :
    toFixed2 x = ⟨false, ⌊x * 100 + 1 / 2⌋.toNat⟩ := by
  unfold toFixed2
  rw [if_neg (not_lt.mpr hx)]

theorem toFixed2_negative_of_nonneg {x : ℚ} (hx : 0 ≤ x) : (toFixed2 x).negative = false := by
  rw [toFixed2_of_nonneg hx]

theorem value_nonneg_of_not_negative {f : Fixed2} (hf : f.negative = false) :
    0 ≤ f.value := by
  unfold Fixed2.value
  rw [hf]
  simp only [Bool.false_eq_true, if_false]
  positivity

theorem parseFloat_nonneg_of_not_negative {f : Fixed2} (hf : f.negative = false) :
    0 ≤ f.parseFloat :=
  toDouble_nonneg (value_nonneg_of_not_negative hf)

theorem value_toFixed2_nonneg {x : ℚ} (hx : 0 ≤ x) : 0 ≤ (toFixed2 x).value := by
  apply value_nonneg_of_not_negative
  rw [toFixed2_of_nonneg hx]

theorem parseFloat_toFixed2_nonneg {x : ℚ} (hx : 0 ≤ x) : 0 ≤ (toFixed2 x).parseFloat :=
  toDouble_nonneg (value_toFixed2_nonneg hx)

theorem value_zero : Fixed2.zero.value = 0 := by
  simp [Fixed2.zero, Fixed2.value]

theorem parseFloat_zero : Fixed2.zero.parseFloat = 0 := by
  unfold Fixed2.parseFloat
  rw [value_zero, toDouble_zero]

theorem toFixed2_cents (c : ℕ) : toFixed2 ((c : ℚ) / 100) = ⟨false, c⟩ := by
  have h0 : (0 : ℚ) ≤ (c : ℚ) / 100 := by positivity
  rw [toFixed2_of_nonneg h0]
  have h1 : ⌊(c : ℚ) / 100 * 100 + 1 / 2⌋ = (c : ℤ) := by
    rw [Int.floor_eq_iff]
    constructor
    · push_cast
      linarith
    · push_cast
      linarith
  rw [h1, Int.toNat_natCast]

theorem value_toFixed2_mono {x y : ℚ} (hx : 0 ≤ x) (hxy : x ≤ y) :
    (toFixed2 x).value ≤ (toFixed2 y).value := by
  rw [toFixed2_of_nonneg hx, toFixed2_of_nonneg (le_trans hx hxy)]
  simp only [Fixed2.value, Bool.false_eq_true, if_false]
  have h : ⌊x * 100 + 1 / 2⌋.toNat ≤ ⌊y * 100 + 1 / 2⌋.toNat :=
    Int.toNat_le_toNat (Int.floor_mono (by linarith))
  have h2 : ((⌊x * 100 + 1 / 2⌋.toNat : ℕ) : ℚ) ≤ ((⌊y * 100 + 1 / 2⌋.toNat : ℕ) : ℚ) := by
    exact_mod_cast h
  linarith

theorem parseFloat_toFixed2_mono {x y : ℚ} (hx : 0 ≤ x) (hxy : x ≤ y) :
    (toFixed2 x).parseFloat ≤ (toFixed2 y).parseFloat :=
  toDouble_mono (value_toFixed2_mono hx hxy) (value_toFixed2_nonneg hx)

theorem value_toFixed2_near (x : ℚ) : |(toFixed2 x).value - x| ≤ 1 / 200 := by
  unfold toFixed2
  split
  · rename_i hneg
    have hpos : (0 : ℤ) ≤ ⌊-x * 100 + 1 / 2⌋ := Int.floor_nonneg.mpr (by linarith)
    have hcast : ((⌊-x * 100 + 1 / 2⌋.toNat : ℕ) : ℚ) = (⌊-x * 100 + 1 / 2⌋ : ℚ) := by
      exact_mod_cast Int.toNat_of_nonneg hpos
    have h1 := Int.floor_le (-x * 100 + 1 / 2)
    have h2 := Int.lt_floor_add_one (-x * 100 + 1 / 2)
    simp only [Fixed2.value, if_true]
    rw [hcast, abs_le]
    constructor <;> linarith
  · rename_i hnn
    have hx : 0 ≤ x := not_lt.mp hnn
    have hpos : (0 : ℤ) ≤ ⌊x * 100 + 1 / 2⌋ := Int.floor_nonneg.mpr (by linarith)
    have hcast : ((⌊x * 100 + 1 / 2⌋.toNat : ℕ) : ℚ) = (⌊x * 100 + 1 / 2⌋ : ℚ) := by
      exact_mod_cast Int.toNat_of_nonneg hpos
    have h1 := Int.floor_le (x * 100 + 1 / 2)
    have h2 := Int.lt_floor_add_one (x * 100 + 1 / 2)
    simp only [Fixed2.value, Bool.false_eq_true, if_false]
    rw [hcast, abs_le]
    constructor <;> linarith

/-! ## Lemmas on the retirement test -/

theorem noRetirement_eq_isNone (host : Host) (item : Item) :
    noRetirement item (parseDateFlexible host item.retirementDate)
      = (parseDateFlexible host item.retirementDate).isNone := by
  unfold noRetirement
  cases hv : item.retirementDate with
  | null => simp [parseDateFlexible, JsValue.truthy, JsValue.isZero, JsValue.isNull]
  | undefined => simp [parseDateFlexible, JsValue.truthy, JsValue.isZero, JsValue.isNull]
  | bool b => simp [parseDateFlexible, JsValue.truthy, JsValue.isZero, JsValue.isNull, JsValue.isStrZero]
  | num n =>
    cases n with
    | fin q =>
      by_cases hq : q = 0
      · simp [parseDateFlexible, JsValue.truthy, JsValue.isZero, JsValue.isNull, hq]
      · simp [JsValue.isZero, JsValue.isNull, JsValue.isStrZero, hq]
    | nan => simp [parseDateFlexible, JsValue.truthy, JsValue.isZero, JsValue.isNull]
    | inf b => simp [JsValue.isZero, JsValue.isNull, JsValue.isStrZero]
  | str s =>
    by_cases hs : s.data = ['0']
    · simp [parseDateFlexible, JsValue.truthy, JsValue.isZero, JsValue.isNull, JsValue.isStrZero, hs]
    · simp [JsValue.isZero, JsValue.isNull, JsValue.isStrZero, hs]
  | date t => simp [JsValue.isZero, JsValue.isNull, JsValue.isStrZero]

theorem calculateDailyCost_indefinite (host : Host) (now : Int) (item : Item) (p : Int)
    (hp : parseDateFlexible host item.purchaseDate = some p)
    (hr : noRetirement item (parseDateFlexible host item.retirementDate) = true) :
    calculateDailyCost host now item =
      ⟨if max 0 (ceilDays (now - p)) > 0
          then toFixed2 (jsDiv item.price (max 0 (ceilDays (now - p)) : Int))
          else Fixed2.zero,
        none, .infinity, max 0 (ceilDays (now - p)),
        toFixed2 (min item.price
          (toFixed2 (jsMul (if max 0 (ceilDays (now - p)) > 0
              then toFixed2 (jsDiv item.price (max 0 (ceilDays (now - p)) : Int))
              else Fixed2.zero).parseFloat (max 0 (ceilDays (now - p)) : Int))).parseFloat)⟩ := by
  unfold calculateDailyCost
  simp only [hp, hr]

theorem calculateDailyCost_retired (host : Host) (now : Int) (item : Item) (p r : Int)
    (hp : parseDateFlexible host item.purchaseDate = some p)
    (hr : parseDateFlexible host item.retirementDate = some r) :
    calculateDailyCost host now item =
      if ceilDays (r - p) ≤ 0 then
        ⟨Fixed2.zero, if item.sold then some Fixed2.zero else none, .finite (ceilDays (r - p)),
          max 0 (ceilDays (r - p)),
          toFixed2 (if item.sold then jsSub item.price item.soldValue else item.price)⟩
      else
        ⟨toFixed2 (jsDiv (if item.sold then jsSub item.price item.soldValue else item.price)
            (ceilDays (r - p))),
          if item.sold then some (toFixed2 (jsDiv item.price (ceilDays (r - p)))) else none,
          .finite (ceilDays (r - p)), max 0 (ceilDays (r - p)),
          toFixed2 (min (if item.sold then jsSub item.price item.soldValue else item.price)
            (jsMul (toFixed2 (jsDiv
              (if item.sold then jsSub item.price item.soldValue else item.price)
              (ceilDays (r - p)))).parseFloat (max 0 (ceilDays (r - p)) : Int)))⟩ := by
  have hn : noRetirement item (parseDateFlexible host item.retirementDate) = false := by
    rw [noRetirement_eq_isNone, hr]; rfl
  unfold calculateDailyCost
  simp only [hp]
  rw [hn, hr]

/-! ## Evaluation lemmas -/

theorem ceilDays_eq_of {ms k : Int} (h1 : (k - 1) * msPerDay < ms) (h2 : ms ≤ k * msPerDay) :
    ceilDays ms = k := by
  unfold ceilDays
  have hd : (0 : ℚ) < (msPerDay : ℚ) := by norm_num [msPerDay]
  rw [Int.ceil_eq_iff]
  constructor
  · rw [lt_div_iff₀ hd]
    exact_mod_cast h1
  · rw [div_le_iff₀ hd]
    exact_mod_cast h2

theorem ceilDays_pos_iff (ms : Int) : 0 < ceilDays ms ↔ 0 < ms := by
  unfold ceilDays
  have hd : (0 : ℚ) < (msPerDay : ℚ) := by norm_num [msPerDay]
  rw [Int.ceil_pos, div_pos_iff_of_pos_right hd]
  exact_mod_cast Iff.rfl

theorem toFixed2_toDouble_cents (c : ℕ) (hc : c ≤ 1000000000000000) :
    toFixed2 (toDouble ((c : ℚ) / 100)) = ⟨false, c⟩ := by
  rcases Nat.eq_zero_or_pos c with h0 | hpos
  · rw [h0]
    simp only [Nat.cast_zero, zero_div, toDouble_zero]
    have h := toFixed2_cents 0
    simpa using h
  · have hx : (0 : ℚ) < (c : ℚ) / 100 := by positivity
    have herr := toDouble_error_rel hx
    rw [abs_le] at herr
    have hcq : (c : ℚ) ≤ 1000000000000000 := by exact_mod_cast hc
    have hsmall : (c : ℚ) / 100 / 2 ^ (53 : ℕ) ≤ 1 / 800 := by
      rw [div_le_iff₀ (by positivity)]
      norm_num
      linarith
    have hd0 : 0 ≤ toDouble ((c : ℚ) / 100) := toDouble_nonneg (le_of_lt hx)
    rw [toFixed2_of_nonneg hd0]
    have hfl : ⌊toDouble ((c : ℚ) / 100) * 100 + 1 / 2⌋ = (c : ℤ) := by
      rw [Int.floor_eq_iff]
      constructor
      · push_cast
        linarith [herr.1]
      · push_cast
        linarith [herr.2]
    rw [hfl, Int.toNat_natCast]

theorem toFixed2_eq_of {x : ℚ} {c : ℕ} (h1 : (c : ℚ) ≤ x * 100 + 1 / 2)
    (h2 : x * 100 + 1 / 2 < (c : ℚ) + 1) (h0 : 0 ≤ x) : toFixed2 x = ⟨false, c⟩ := by
  rw [toFixed2_of_nonneg h0]
  have h : ⌊x * 100 + 1 / 2⌋ = (c : ℤ) := by
    rw [Int.floor_eq_iff]
    exact ⟨by exact_mod_cast h1, by exact_mod_cast h2⟩
  rw [h, Int.toNat_natCast]

/-! ## Claims -/

/-- C1, counterexample: an indefinite-use item of price 0.0078125, one day after its
purchase, has consumed value "0.01", which is more than its price. -/
theorem consumedValue_exceeds_subcent_price :
    parseDateFlexible strictHost subCentItem.purchaseDate = some 0 ∧
    noRetirement subCentItem (parseDateFlexible strictHost subCentItem.retirementDate) = true ∧
    0 ≤ subCentItem.price ∧
    (calculateDailyCost strictHost 86400000 subCentItem).consumedValue = ⟨false, 1⟩ ∧
    ¬ (calculateDailyCost strictHost 86400000 subCentItem).consumedValue.value
        ≤ subCentItem.price ∧
    ¬ (calculateDailyCost strictHost 86400000 subCentItem).consumedValue.parseFloat
        ≤ subCentItem.price := by
  have hp : parseDateFlexible strictHost subCentItem.purchaseDate = some 0 := by rfl
  have hr : noRetirement subCentItem
      (parseDateFlexible strictHost subCentItem.retirementDate) = true := by rfl
  have hd : ceilDays (86400000 - 0) = 1 := ceilDays_eq_of (by decide) (by decide)
  have hmax : max (0 : Int) 1 = 1 := by decide
  have d128 : toDouble (1 / 128) = 1 / 128 := by
    rw [toDouble_eq_of (-7) 4503599627370496 (by norm_num) (by norm_num) (by norm_num)
      (by norm_num [abs_lt])]
    norm_num
  have c128 : toFixed2 (1 / 128) = ⟨false, 1⟩ :=
    toFixed2_eq_of (by norm_num) (by norm_num) (by norm_num)
  have d01 : toDouble (1 / 100) = 5764607523034235 / 576460752303423488 := by
    rw [toDouble_eq_of (-7) 5764607523034235 (by norm_num) (by norm_num) (by norm_num)
      (by norm_num [abs_lt])]
    norm_num
  have d01' : toDouble (5764607523034235 / 576460752303423488)
      = 5764607523034235 / 576460752303423488 := by
    rw [toDouble_eq_of (-7) 5764607523034235 (by norm_num) (by norm_num) (by norm_num)
      (by norm_num [abs_lt])]
    norm_num
  have c01 : toFixed2 (5764607523034235 / 576460752303423488) = ⟨false, 1⟩ :=
    toFixed2_eq_of (by norm_num) (by norm_num) (by norm_num)
  have hmin : min (1 / 128 : ℚ) (5764607523034235 / 576460752303423488) = 1 / 128 :=
    min_eq_left (by norm_num)
  have hc : (calculateDailyCost strictHost 86400000 subCentItem).consumedValue = ⟨false, 1⟩ := by
    rw [calculateDailyCost_indefinite _ _ _ 0 hp hr]
    simp only [hd, hmax]
    rw [if_pos (by decide)]
    simp only [subCentItem, jsDiv, jsMul, Fixed2.parseFloat, Fixed2.value, Int.cast_one,
      div_one, mul_one, Nat.cast_one, Bool.false_eq_true, if_false, d128, c128, d01, d01', c01,
      hmin]
  refine ⟨hp, hr, by norm_num [subCentItem], hc, ?_, ?_⟩
  · rw [hc]
    norm_num [Fixed2.value, subCentItem]
  · rw [hc]
    simp only [Fixed2.parseFloat, Fixed2.value, Nat.cast_one, Bool.false_eq_true, if_false, d01]
    norm_num [subCentItem]

/-- C1, amended: for an indefinite-use item with a parseable purchase date and a
non-negative price, at every instant `now`, the consumed value read as a number is at
most the price rounded to two decimals by `toFixed(2)`; hence it is at most the price
itself whenever the price is a whole number of hundredths.  Both hold of the decimal
number that the text denotes and of the Number that `parseFloat` returns for it (there
for the price written with two decimals, up to 10000000000000). -/
theorem consumedValue_le_price_indefinite (host : Host) (now : Int) (item : Item) (p : Int)
    (hp : parseDateFlexible host item.purchaseDate = some p)
    (hr : noRetirement item (parseDateFlexible host item.retirementDate) = true)
    (hprice : 0 ≤ item.price) :
    ((calculateDailyCost host now item).consumedValue.value
        ≤ (toFixed2 item.price).value ∧
      ∀ c : ℕ, item.price = (c : ℚ) / 100 →
        (calculateDailyCost host now item).consumedValue.value ≤ item.price) ∧
    ((calculateDailyCost host now item).consumedValue.parseFloat
        ≤ (toFixed2 item.price).parseFloat ∧
      ∀ c : ℕ, c ≤ 1000000000000000 → item.price = toDouble ((c : ℚ) / 100) →
        (calculateDailyCost host now item).consumedValue.parseFloat ≤ item.price) := by
  have hdays : (0 : ℚ) ≤ ((max 0 (ceilDays (now - p)) : Int) : ℚ) := by
    exact_mod_cast le_max_left 0 (ceilDays (now - p))
  have hdaily : 0 ≤ (if max 0 (ceilDays (now - p)) > 0
      then toFixed2 (jsDiv item.price (max 0 (ceilDays (now - p)) : Int))
      else Fixed2.zero).parseFloat := by
    split
    · exact parseFloat_toFixed2_nonneg (toDouble_nonneg (div_nonneg hprice hdays))
    · rw [parseFloat_zero]
  have hmin : 0 ≤ min item.price
      (toFixed2 (jsMul (if max 0 (ceilDays (now - p)) > 0
          then toFixed2 (jsDiv item.price (max 0 (ceilDays (now - p)) : Int))
          else Fixed2.zero).parseFloat (max 0 (ceilDays (now - p)) : Int))).parseFloat :=
    le_min hprice (parseFloat_toFixed2_nonneg (toDouble_nonneg (mul_nonneg hdaily hdays)))
  have hvalue : (calculateDailyCost host now item).consumedValue.value
      ≤ (toFixed2 item.price).value := by
    rw [calculateDailyCost_indefinite host now item p hp hr]
    exact value_toFixed2_mono hmin (min_le_left _ _)
  have hnumber : (calculateDailyCost host now item).consumedValue.parseFloat
      ≤ (toFixed2 item.price).parseFloat := by
    rw [calculateDailyCost_indefinite host now item p hp hr]
    exact parseFloat_toFixed2_mono hmin (min_le_left _ _)
  refine ⟨⟨hvalue, ?_⟩, hnumber, ?_⟩
  · intro c hc
    have hround : (toFixed2 item.price).value = item.price := by
      rw [hc, toFixed2_cents]
      simp [Fixed2.value]
    rw [hround] at hvalue
    exact hvalue
  · intro c hc hc2
    have hround : (toFixed2 item.price).parseFloat = item.price := by
      rw [hc2, toFixed2_toDouble_cents c hc]
      simp [Fixed2.parseFloat, Fixed2.value]
    rw [hround] at hnumber
    exact hnumber

/-- C1, witness: the amended bounds at the item of the first end-to-end example
(price 1200, bought 2024-01-01, evaluated at 2024-01-31). -/
theorem consumedValue_le_price_indefinite_witness :
    ((calculateDailyCost strictHost jan31of2024 exampleOpenItem).consumedValue.value
        ≤ (toFixed2 exampleOpenItem.price).value ∧
      ∀ c : ℕ, exampleOpenItem.price = (c : ℚ) / 100 →
        (calculateDailyCost strictHost jan31of2024 exampleOpenItem).consumedValue.value
          ≤ exampleOpenItem.price) ∧
    ((calculateDailyCost strictHost jan31of2024 exampleOpenItem).consumedValue.parseFloat
        ≤ (toFixed2 exampleOpenItem.price).parseFloat ∧
      ∀ c : ℕ, c ≤ 1000000000000000 → exampleOpenItem.price = toDouble ((c : ℚ) / 100) →
        (calculateDailyCost strictHost jan31of2024 exampleOpenItem).consumedValue.parseFloat
          ≤ exampleOpenItem.price) :=
  consumedValue_le_price_indefinite strictHost jan31of2024 exampleOpenItem 1704067200000
    (by rfl) (by rfl) (by norm_num [exampleOpenItem])

/-- C2: an item whose retirement date parses to an instant at or before `today` and
whose warranty date parses to an instant strictly before `today` gets the retired status
(class "retired-tag", with the retired label), not the expired one. -/
theorem getItemStatus_retired_before_expired (host : Host) (dict : Option Dict) (today : Int)
    (item : Item) (r w : Int)
    (hr : parseDateFlexible host item.retirementDate = some r) (hrt : r ≤ today)
    (_hw : parseDateFlexible host item.warrantyDate = some w) (_hwt : w < today) :
    getItemStatus host dict today item
        = ⟨match dict with | some d => d.statusRetired | none => "已退役", "retired-tag"⟩ ∧
      (getItemStatus host dict today item).className ≠ "expired-tag" := by
  have hn : noRetirement item (parseDateFlexible host item.retirementDate) = false := by
    rw [noRetirement_eq_isNone, hr]; rfl
  have hs : getItemStatus host dict today item
      = ⟨match dict with | some d => d.statusRetired | none => "已退役", "retired-tag"⟩ := by
    unfold getItemStatus
    simp only [hn]
    simp [hr, notAfter, hrt]
  rw [hs]
  exact ⟨rfl, by simp⟩

/-- C2, witness: an item retired at second 1 with warranty ended at the epoch, looked at
two seconds after the epoch. -/
theorem getItemStatus_retired_before_expired_witness :
    getItemStatus strictHost none 2000 retiredOutOfWarranty = ⟨"已退役", "retired-tag"⟩ ∧
      (getItemStatus strictHost none 2000 retiredOutOfWarranty).className ≠ "expired-tag" :=
  getItemStatus_retired_before_expired strictHost none 2000 retiredOutOfWarranty 1000 0
    (by rfl) (by decide) (by rfl) (by decide)

/-- C3, counterexample: an item that is not retired and whose warranty instant equals
`today` has `daysToWarranty = 0`, yet its status is active, not expired. -/
theorem getItemStatus_warranty_now_is_active :
    (!noRetirement warrantyEndsNow (parseDateFlexible strictHost warrantyEndsNow.retirementDate)
        && notAfter (parseDateFlexible strictHost warrantyEndsNow.retirementDate) 86400000)
      = false ∧
    parseDateFlexible strictHost warrantyEndsNow.warrantyDate = some 86400000 ∧
    ceilDays (86400000 - 86400000) = 0 ∧
    (getItemStatus strictHost none 86400000 warrantyEndsNow).className = "active-tag" ∧
    (getItemStatus strictHost none 86400000 warrantyEndsNow).className ≠ "expired-tag" := by
  have hd : ceilDays (86400000 - 86400000) = 0 := ceilDays_eq_of (by decide) (by decide)
  have hs : getItemStatus strictHost none 86400000 warrantyEndsNow = ⟨"使用中", "active-tag"⟩ := by
    have hw : parseDateFlexible strictHost warrantyEndsNow.warrantyDate = some 86400000 := by rfl
    have hn : noRetirement warrantyEndsNow
        (parseDateFlexible strictHost warrantyEndsNow.retirementDate) = true := by rfl
    have hd0 : ceilDays 0 = 0 := hd
    unfold getItemStatus
    simp [hn, hw, hd0]
  refine ⟨by rfl, by rfl, hd, ?_, ?_⟩
  · rw [hs]
  · rw [hs]; decide

/-- C3, amended: for an item that does not pass the retirement test and has a parsed
warranty instant `w`, with `daysToWarranty = ceil((w − today) / 1 day)`: the status is
expiring-soon (carrying 30) when `daysToWarranty = 30`, active when `daysToWarranty = 31`,
and when `daysToWarranty = 0` it is expired if `w` is strictly before `today` and active
if `w` equals `today`. -/
theorem getItemStatus_warranty_boundaries (host : Host) (dict : Option Dict) (today : Int)
    (item : Item) (w : Int)
    (hnr : (!noRetirement item (parseDateFlexible host item.retirementDate)
        && notAfter (parseDateFlexible host item.retirementDate) today) = false)
    (hw : parseDateFlexible host item.warrantyDate = some w) :
    (ceilDays (w - today) = 30 →
      getItemStatus host dict today item
        = ⟨match dict with
            | some d => d.statusExpiring 30
            | none => "保修即将到期 (" ++ toString (30 : Int) ++ "天)", "expiring-tag"⟩) ∧
    (ceilDays (w - today) = 31 →
      getItemStatus host dict today item
        = ⟨match dict with | some d => d.statusActive | none => "使用中", "active-tag"⟩) ∧
    (ceilDays (w - today) = 0 → w < today →
      getItemStatus host dict today item
        = ⟨match dict with | some d => d.statusExpired | none => "已过保", "expired-tag"⟩) ∧
    (w = today →
      ceilDays (w - today) = 0 ∧
      getItemStatus host dict today item
        = ⟨match dict with | some d => d.statusActive | none => "使用中", "active-tag"⟩) := by
  have hpos : ∀ k : Int, 0 < k → ceilDays (w - today) = k → ¬ w < today := by
    intro k hk hc hlt
    have h := (ceilDays_pos_iff (w - today)).mp (by rw [hc]; exact hk)
    omega
  refine ⟨?_, ?_, ?_, ?_⟩
  · intro hc
    have hlt := hpos 30 (by decide) hc
    unfold getItemStatus
    simp only [hnr, hw, hc, hlt]
    simp
  · intro hc
    have hlt := hpos 31 (by decide) hc
    unfold getItemStatus
    simp only [hnr, hw, hc, hlt]
    simp
  · intro _ hlt
    unfold getItemStatus
    simp only [hnr, hw, hlt]
    simp
  · intro he
    have hc : ceilDays (w - today) = 0 := by
      rw [he, sub_self]
      exact ceilDays_eq_of (by decide) (by decide)
    refine ⟨hc, ?_⟩
    have hlt : ¬ w < today := by omega
    unfold getItemStatus
    simp only [hnr, hw, hc, hlt]
    simp

/-- C3, witness: an item in use whose warranty ends thirty days after the epoch, looked
at at the epoch, is expiring soon with 30 days left. -/
theorem getItemStatus_warranty_boundaries_witness :
    ceilDays (2592000000 - 0) = 30 ∧
    getItemStatus strictHost none 0 warrantyInThirtyDays
      = ⟨"保修即将到期 (" ++ toString (30 : Int) ++ "天)", "expiring-tag"⟩ :=
  ⟨ceilDays_eq_of (by decide) (by decide),
    (getItemStatus_warranty_boundaries strictHost none 0 warrantyInThirtyDays 2592000000
      (by rfl) (by rfl)).1 (ceilDays_eq_of (by decide) (by decide))⟩

/-! ### Statistics -/

theorem foldl_statisticsStep_snd (host : Host) (now : Int) (mode : Nat) (items : List Item)
    (acc : ℚ × ℚ) :
    (items.foldl (statisticsStep host now mode) acc).2
      = acc.2 + (((items.filter (counted host mode)).map
          (fun item => (calculateDailyCost host now item).dailyCost.parseFloat)).sum) := by
  induction items generalizing acc with
  | nil => simp
  | cons item rest ih =>
    rw [List.foldl_cons, ih]
    by_cases hc : counted host mode item = true
    · have hstep : (statisticsStep host now mode acc item).2
          = acc.2 + (calculateDailyCost host now item).dailyCost.parseFloat := by
        unfold counted at hc
        unfold statisticsStep
        simp only [Bool.not_eq_true', Bool.not_eq_true] at hc
        simp only [hc]
        simp
      rw [hstep, List.filter_cons_of_pos hc, List.map_cons, List.sum_cons]
      ring
    · have hstep : statisticsStep host now mode acc item = acc := by
        unfold counted at hc
        unfold statisticsStep
        simp only [Bool.not_eq_true, Bool.not_eq_false'] at hc
        simp only [hc]
        simp
      rw [hstep, List.filter_cons_of_neg hc]

theorem calculateDailyCost_exampleSoldItem (now : Int) :
    calculateDailyCost strictHost now exampleSoldItem
      = ⟨⟨false, 667⟩, some ⟨false, 1111⟩, .finite 90, 90, ⟨false, 60000⟩⟩ := by
  have hd : ceilDays (1680307200000 - 1672531200000) = 90 :=
    ceilDays_eq_of (by decide) (by decide)
  have hs : exampleSoldItem.sold = true := by
    simp [Item.sold, exampleSoldItem]
  have hmax : max (0 : Int) 90 = 90 := by decide
  have s600 : toDouble (1000 - 400) = 600 := by
    rw [toDouble_eq_of 9 5277655813324800 (by norm_num) (by norm_num) (by norm_num)
      (by norm_num [abs_lt])]
    norm_num
  have q1 : toDouble (600 / 90) = 7505999378950827 / 1125899906842624 := by
    rw [toDouble_eq_of 2 7505999378950827 (by norm_num) (by norm_num) (by norm_num)
      (by norm_num [abs_lt])]
    norm_num
  have c1 : toFixed2 (7505999378950827 / 1125899906842624) = ⟨false, 667⟩ :=
    toFixed2_eq_of (by norm_num) (by norm_num) (by norm_num)
  have q2 : toDouble (1000 / 90) = 3127499741229511 / 281474976710656 := by
    rw [toDouble_eq_of 3 6254999482459022 (by norm_num) (by norm_num) (by norm_num)
      (by norm_num [abs_lt])]
    norm_num
  have c2 : toFixed2 (3127499741229511 / 281474976710656) = ⟨false, 1111⟩ :=
    toFixed2_eq_of (by norm_num) (by norm_num) (by norm_num)
  have a1 : toDouble (667 / 100) = 3754876189320151 / 562949953421312 := by
    rw [toDouble_eq_of 2 7509752378640302 (by norm_num) (by norm_num) (by norm_num)
      (by norm_num [abs_lt])]
    norm_num
  have v1 : toDouble (3754876189320151 / 562949953421312 * 90) = 2640147320615731 / 4398046511104 := by
    rw [toDouble_eq_of 9 5280294641231462 (by norm_num) (by norm_num) (by norm_num)
      (by norm_num [abs_lt])]
    norm_num
  have hmin : min (600 : ℚ) (2640147320615731 / 4398046511104) = 600 := min_eq_left (by norm_num)
  have c3 : toFixed2 600 = ⟨false, 60000⟩ :=
    toFixed2_eq_of (by norm_num) (by norm_num) (by norm_num)
  rw [calculateDailyCost_retired strictHost now exampleSoldItem 1672531200000 1680307200000
    (by rfl) (by rfl)]
  simp only [hd, hs, if_true, hmax]
  rw [if_neg (by decide)]
  simp only [exampleSoldItem, Item.soldValue, Option.getD, jsSub, jsDiv, jsMul,
    Fixed2.parseFloat, Fixed2.value, Int.cast_ofNat, Nat.cast_ofNat, Bool.false_eq_true,
    if_false, s600, q1, c1, q2, c2, a1, v1, hmin, c3]

theorem parseFloat_exampleDailyCost :
    (⟨false, 667⟩ : Fixed2).parseFloat = 3754876189320151 / 562949953421312 := by
  simp only [Fixed2.parseFloat, Fixed2.value, Nat.cast_ofNat, Bool.false_eq_true, if_false]
  rw [toDouble_eq_of 2 7509752378640302 (by norm_num) (by norm_num) (by norm_num)
    (by norm_num [abs_lt])]
  norm_num

theorem updateStatistics_dailyCost_eq (host : Host) (now : Int) (mode : Nat) (items : List Item) :
    (updateStatistics host now mode items).globalAvgDailyCost
      = ((items.filter (counted host mode)).map
          (fun item => (calculateDailyCost host now item).dailyCost.parseFloat)).sum := by
  unfold updateStatistics
  simp only [foldl_statisticsStep_snd, zero_add]

/-- C4, counterexample: in active-only mode (`currentCalcMode = 1`) on the list holding
the sold and retired item of the second end-to-end example, the accumulated daily-cost
total is 0, which is neither the sum of the items' daily costs (6.67) nor the total
accumulated in mode 0. -/
theorem updateStatistics_dailyCost_depends_on_mode :
    (updateStatistics strictHost 0 1 [exampleSoldItem]).globalAvgDailyCost
      ≠ ([exampleSoldItem].map
          (fun item => (calculateDailyCost strictHost 0 item).dailyCost.parseFloat)).sum ∧
    (updateStatistics strictHost 0 1 [exampleSoldItem]).globalAvgDailyCost
      ≠ (updateStatistics strictHost 0 0 [exampleSoldItem]).globalAvgDailyCost := by
  have h1 : counted strictHost 1 exampleSoldItem = false := by rfl
  have h0 : counted strictHost 0 exampleSoldItem = true := by rfl
  rw [updateStatistics_dailyCost_eq, updateStatistics_dailyCost_eq]
  simp only [List.filter_cons_of_neg (Bool.not_eq_true _ ▸ h1), List.filter_cons_of_pos h0,
    List.filter_nil, List.map_cons, List.map_nil, List.sum_cons, List.sum_nil,
    calculateDailyCost_exampleSoldItem, parseFloat_exampleDailyCost]
  norm_num

/-- C4, amended: for every item list and every `now`, the daily-cost total stored in
`globalAvgDailyCost` equals the sum of `calculateDailyCost(item).dailyCost` over all
items in the modes 0 (all-purchases) and 2 (net-value), which therefore agree; in mode 1
(active-only) it is that sum over the items that are not retired, the retired ones being
skipped altogether. -/
theorem updateStatistics_dailyCost_total (host : Host) (now : Int) (items : List Item) :
    (updateStatistics host now 0 items).globalAvgDailyCost
      = (items.map (fun item => (calculateDailyCost host now item).dailyCost.parseFloat)).sum ∧
    (updateStatistics host now 2 items).globalAvgDailyCost
      = (items.map (fun item => (calculateDailyCost host now item).dailyCost.parseFloat)).sum ∧
    (updateStatistics host now 1 items).globalAvgDailyCost
      = ((items.filter
            (fun item => noRetirement item (parseDateFlexible host item.retirementDate))).map
          (fun item => (calculateDailyCost host now item).dailyCost.parseFloat)).sum := by
  have h0 : counted host 0 = fun _ => true := by
    funext item; simp [counted]
  have h2 : counted host 2 = fun _ => true := by
    funext item; simp [counted]
  have h1 : counted host 1
      = fun item => noRetirement item (parseDateFlexible host item.retirementDate) := by
    funext item; simp [counted]
  refine ⟨?_, ?_, ?_⟩
  · rw [updateStatistics_dailyCost_eq, h0, List.filter_true]
  · rw [updateStatistics_dailyCost_eq, h2, List.filter_true]
  · rw [updateStatistics_dailyCost_eq, h1]

/-! ### Retired items -/

theorem text_zero : Fixed2.zero.text = "0.00" := by decide

theorem calculateDailyCost_halfCentSoldItem (now : Int) :
    calculateDailyCost strictHost now halfCentSoldItem
      = ⟨⟨false, 1⟩, some ⟨false, 501⟩, .finite 200, 200, ⟨false, 200⟩⟩ := by
  have hd : ceilDays (17280000000 - 0) = 200 := ceilDays_eq_of (by decide) (by decide)
  have hs : halfCentSoldItem.sold = true := by
    simp [Item.sold, halfCentSoldItem]
  have hmax : max (0 : Int) 200 = 200 := by decide
  have s3 : toDouble (1003 - 1000) = 3 := by
    rw [toDouble_eq_of 1 6755399441055744 (by norm_num) (by norm_num) (by norm_num)
      (by norm_num [abs_lt])]
    norm_num
  have q1 : toDouble (3 / 200) = 1080863910568919 / 72057594037927936 := by
    rw [toDouble_eq_of (-7) 8646911284551352 (by norm_num) (by norm_num) (by norm_num)
      (by norm_num [abs_lt])]
    norm_num
  have c1 : toFixed2 (1080863910568919 / 72057594037927936) = ⟨false, 1⟩ :=
    toFixed2_eq_of (by norm_num) (by norm_num) (by norm_num)
  have q2 : toDouble (1003 / 200) = 5646388032815759 / 1125899906842624 := by
    rw [toDouble_eq_of 2 5646388032815759 (by norm_num) (by norm_num) (by norm_num)
      (by norm_num [abs_lt])]
    norm_num
  have c2 : toFixed2 (5646388032815759 / 1125899906842624) = ⟨false, 501⟩ :=
    toFixed2_eq_of (by norm_num) (by norm_num) (by norm_num)
  have a1 : toDouble (1 / 100) = 5764607523034235 / 576460752303423488 := by
    rw [toDouble_eq_of (-7) 5764607523034235 (by norm_num) (by norm_num) (by norm_num)
      (by norm_num [abs_lt])]
    norm_num
  have v1 : toDouble (5764607523034235 / 576460752303423488 * 200) = 2 := by
    rw [toDouble_eq_of 1 4503599627370496 (by norm_num) (by norm_num) (by norm_num)
      (by norm_num [abs_lt])]
    norm_num
  have hmin : min (3 : ℚ) 2 = 2 := min_eq_right (by norm_num)
  have c3 : toFixed2 2 = ⟨false, 200⟩ :=
    toFixed2_eq_of (by norm_num) (by norm_num) (by norm_num)
  rw [calculateDailyCost_retired strictHost now halfCentSoldItem 0 17280000000
    (by rfl) (by rfl)]
  simp only [hd, hs, if_true, hmax]
  rw [if_neg (by decide)]
  simp only [halfCentSoldItem, Item.soldValue, Option.getD, jsSub, jsDiv, jsMul,
    Fixed2.parseFloat, Fixed2.value, Int.cast_ofNat, Nat.cast_ofNat, Nat.cast_one,
    Bool.false_eq_true, if_false, s3, q1, c1, q2, c2, a1, v1, hmin, c3]

/-- C5, counterexample: an item retired after 90 days that carries the sale price 0 gets
no `originalDailyCost` at all (the field stays `null`), not `price / totalDays` rounded. -/
theorem originalDailyCost_null_when_sold_for_zero :
    parseDateFlexible strictHost soldForNothing.purchaseDate = some 1672531200000 ∧
    parseDateFlexible strictHost soldForNothing.retirementDate = some 1680307200000 ∧
    soldForNothing.soldPrice = some 0 ∧
    0 < ceilDays (1680307200000 - 1672531200000) ∧
    (calculateDailyCost strictHost 0 soldForNothing).originalDailyCost = none ∧
    (calculateDailyCost strictHost 0 soldForNothing).originalDailyCost
      ≠ some (toFixed2 (jsDiv soldForNothing.price
          (ceilDays (1680307200000 - 1672531200000)))) := by
  have hd : ceilDays (1680307200000 - 1672531200000) = 90 :=
    ceilDays_eq_of (by decide) (by decide)
  have hs : soldForNothing.sold = false := by
    simp [Item.sold, soldForNothing]
  have ho : (calculateDailyCost strictHost 0 soldForNothing).originalDailyCost = none := by
    rw [calculateDailyCost_retired strictHost 0 soldForNothing 1672531200000 1680307200000
      (by rfl) (by rfl)]
    simp only [hd, hs]
    rw [if_neg (by decide)]
    simp
  refine ⟨by rfl, by rfl, rfl, by rw [hd]; decide, ho, ?_⟩
  rw [ho]
  simp

/-- C5, amended: for an item with a parseable purchase date `p`, a retirement date parsing
to `r`, a sale price `s` other than zero and `totalDays = ceil((r − p) / 1 day) > 0`, the
record has `dailyCost = (price − s) / totalDays` and `originalDailyCost = price /
totalDays`, both Number quotients rounded to two decimals by `toFixed(2)` (the decimal
number of each text is within 0.005 of the quotient), and `totalDays` as its lifespan. -/
theorem calculateDailyCost_retired_sold (host : Host) (now : Int) (item : Item) (p r : Int)
    (s : ℚ)
    (hp : parseDateFlexible host item.purchaseDate = some p)
    (hr : parseDateFlexible host item.retirementDate = some r)
    (hs : item.soldPrice = some s) (hs0 : s ≠ 0) (hd : 0 < ceilDays (r - p)) :
    ((calculateDailyCost host now item).dailyCost
        = toFixed2 (jsDiv (jsSub item.price s) (ceilDays (r - p))) ∧
      (calculateDailyCost host now item).originalDailyCost
        = some (toFixed2 (jsDiv item.price (ceilDays (r - p)))) ∧
      (calculateDailyCost host now item).totalDays = .finite (ceilDays (r - p))) ∧
    |(calculateDailyCost host now item).dailyCost.value
        - jsDiv (jsSub item.price s) (ceilDays (r - p))| ≤ 1 / 200 ∧
    |(toFixed2 (jsDiv item.price (ceilDays (r - p)))).value
        - jsDiv item.price (ceilDays (r - p))| ≤ 1 / 200 := by
  have hsold : item.sold = true := by
    simp [Item.sold, hs, hs0]
  have hval : item.soldValue = s := by
    simp [Item.soldValue, hs]
  have hrec : (calculateDailyCost host now item).dailyCost
        = toFixed2 (jsDiv (jsSub item.price s) (ceilDays (r - p))) ∧
      (calculateDailyCost host now item).originalDailyCost
        = some (toFixed2 (jsDiv item.price (ceilDays (r - p)))) ∧
      (calculateDailyCost host now item).totalDays = .finite (ceilDays (r - p)) := by
    rw [calculateDailyCost_retired host now item p r hp hr, if_neg (not_le.mpr hd)]
    simp only [hsold, hval, if_true]
    exact ⟨trivial, trivial, trivial⟩
  refine ⟨hrec, ?_, value_toFixed2_near _⟩
  rw [hrec.1]
  exact value_toFixed2_near _

/-- C5, witness: the second end-to-end example (price 1000, sold for 400, owned from
2023-01-01 to 2023-04-01) has 90 days, daily cost "6.67" and original daily cost "11.11".
An item bought for 1003 and sold for 1000 after 200 days has daily cost "0.01", original
daily cost "5.01" and consumed value "2.00": its Number quotients 3 / 200 and 1003 / 200
lie just below 0.015 and 5.015. -/
theorem calculateDailyCost_retired_sold_witness :
    ((calculateDailyCost strictHost 0 exampleSoldItem).totalDays = .finite 90 ∧
      (calculateDailyCost strictHost 0 exampleSoldItem).dailyCost.text = "6.67" ∧
      (calculateDailyCost strictHost 0 exampleSoldItem).originalDailyCost.map Fixed2.text
        = some "11.11") ∧
    ((calculateDailyCost strictHost 0 halfCentSoldItem).totalDays = .finite 200 ∧
      (calculateDailyCost strictHost 0 halfCentSoldItem).dailyCost.text = "0.01" ∧
      (calculateDailyCost strictHost 0 halfCentSoldItem).originalDailyCost.map Fixed2.text
        = some "5.01" ∧
      (calculateDailyCost strictHost 0 halfCentSoldItem).consumedValue.text = "2.00" ∧
      jsDiv (jsSub halfCentSoldItem.price 1000) (200 : Int) < 3 / 200 ∧
      jsDiv halfCentSoldItem.price (200 : Int) < 1003 / 200) := by
  have hd : ceilDays (1680307200000 - 1672531200000) = 90 :=
    ceilDays_eq_of (by decide) (by decide)
  have h := calculateDailyCost_retired_sold strictHost 0 exampleSoldItem 1672531200000
    1680307200000 400 (by rfl) (by rfl) rfl (by norm_num) (by rw [hd]; decide)
  have hrec := calculateDailyCost_exampleSoldItem 0
  have hhalf := calculateDailyCost_halfCentSoldItem 0
  obtain ⟨⟨_, _, hc⟩, _, _⟩ := h
  rw [hd] at hc
  refine ⟨⟨hc, by rw [hrec]; decide, by rw [hrec]; decide⟩, ?_⟩
  rw [hhalf]
  refine ⟨rfl, by decide, by decide, by decide, ?_, ?_⟩
  · have s3 : toDouble (1003 - 1000) = 3 := by
      rw [toDouble_eq_of 1 6755399441055744 (by norm_num) (by norm_num) (by norm_num)
        (by norm_num [abs_lt])]
      norm_num
    simp only [halfCentSoldItem, jsDiv, jsSub, Int.cast_ofNat, s3]
    rw [toDouble_eq_of (-7) 8646911284551352 (by norm_num) (by norm_num) (by norm_num)
      (by norm_num [abs_lt])]
    norm_num
  · simp only [halfCentSoldItem, jsDiv, Int.cast_ofNat]
    rw [toDouble_eq_of 2 5646388032815759 (by norm_num) (by norm_num) (by norm_num)
      (by norm_num [abs_lt])]
    norm_num

/-! ### Indefinite use -/

theorem calculateDailyCost_exampleOpenItem :
    calculateDailyCost strictHost jan31of2024 exampleOpenItem
      = ⟨⟨false, 4000⟩, none, .infinity, 30, ⟨false, 120000⟩⟩ := by
  have hd : ceilDays (jan31of2024 - 1704067200000) = 30 :=
    ceilDays_eq_of (by decide) (by decide)
  have hmax : max (0 : Int) 30 = 30 := by decide
  have q1 : toDouble (1200 / 30) = 40 := by
    rw [toDouble_eq_of 5 5629499534213120 (by norm_num) (by norm_num) (by norm_num)
      (by norm_num [abs_lt])]
    norm_num
  have c1 : toFixed2 40 = ⟨false, 4000⟩ :=
    toFixed2_eq_of (by norm_num) (by norm_num) (by norm_num)
  have a1 : toDouble (4000 / 100) = 40 := by
    rw [toDouble_eq_of 5 5629499534213120 (by norm_num) (by norm_num) (by norm_num)
      (by norm_num [abs_lt])]
    norm_num
  have v1 : toDouble (40 * 30) = 1200 := by
    rw [toDouble_eq_of 10 5277655813324800 (by norm_num) (by norm_num) (by norm_num)
      (by norm_num [abs_lt])]
    norm_num
  have c2 : toFixed2 1200 = ⟨false, 120000⟩ :=
    toFixed2_eq_of (by norm_num) (by norm_num) (by norm_num)
  have a2 : toDouble (120000 / 100) = 1200 := by
    rw [toDouble_eq_of 10 5277655813324800 (by norm_num) (by norm_num) (by norm_num)
      (by norm_num [abs_lt])]
    norm_num
  have hmin : min (1200 : ℚ) 1200 = 1200 := min_self _
  rw [calculateDailyCost_indefinite strictHost jan31of2024 exampleOpenItem 1704067200000
    (by rfl) (by rfl)]
  simp only [hd, hmax]
  rw [if_pos (by decide)]
  simp only [exampleOpenItem, jsDiv, jsMul, Fixed2.parseFloat, Fixed2.value, Int.cast_ofNat,
    Nat.cast_ofNat, Bool.false_eq_true, if_false, q1, c1, a1, v1, c2, a2, hmin]

theorem calculateDailyCost_halfCentItem :
    calculateDailyCost strictHost 17280000000 halfCentItem
      = ⟨⟨false, 100⟩, none, .infinity, 200, ⟨false, 20000⟩⟩ := by
  have hd : ceilDays (17280000000 - 0) = 200 := ceilDays_eq_of (by decide) (by decide)
  have hmax : max (0 : Int) 200 = 200 := by decide
  have q1 : toDouble (201 / 200) = 1131529406376837 / 1125899906842624 := by
    rw [toDouble_eq_of 0 4526117625507348 (by norm_num) (by norm_num) (by norm_num)
      (by norm_num [abs_lt])]
    norm_num
  have c1 : toFixed2 (1131529406376837 / 1125899906842624) = ⟨false, 100⟩ :=
    toFixed2_eq_of (by norm_num) (by norm_num) (by norm_num)
  have a1 : toDouble (100 / 100) = 1 := by
    rw [toDouble_eq_of 0 4503599627370496 (by norm_num) (by norm_num) (by norm_num)
      (by norm_num [abs_lt])]
    norm_num
  have v1 : toDouble (1 * 200) = 200 := by
    rw [toDouble_eq_of 7 7036874417766400 (by norm_num) (by norm_num) (by norm_num)
      (by norm_num [abs_lt])]
    norm_num
  have c2 : toFixed2 200 = ⟨false, 20000⟩ :=
    toFixed2_eq_of (by norm_num) (by norm_num) (by norm_num)
  have a2 : toDouble (20000 / 100) = 200 := by
    rw [toDouble_eq_of 7 7036874417766400 (by norm_num) (by norm_num) (by norm_num)
      (by norm_num [abs_lt])]
    norm_num
  have hmin : min (201 : ℚ) 200 = 200 := min_eq_right (by norm_num)
  rw [calculateDailyCost_indefinite strictHost 17280000000 halfCentItem 0 (by rfl) (by rfl)]
  simp only [hd, hmax]
  rw [if_pos (by decide)]
  simp only [halfCentItem, jsDiv, jsMul, Fixed2.parseFloat, Fixed2.value, Int.cast_ofNat,
    Nat.cast_ofNat, Bool.false_eq_true, if_false, q1, c1, a1, v1, c2, a2, hmin]

/-- C6: for an indefinite-use item with a parseable purchase date `p`, at every `now`,
`daysUsed = max(0, ceil((now − p) / 1 day))`, `totalDays` is `Infinity`, and `dailyCost`
is the Number `price / daysUsed` rounded to two decimals by `toFixed(2)` when
`daysUsed > 0` (the decimal number of the text is within 0.005, plus the rounding of the
division, of the exact quotient) and "0.00" when `daysUsed = 0`. -/
theorem calculateDailyCost_indefinite_fields (host : Host) (now : Int) (item : Item) (p : Int)
    (hp : parseDateFlexible host item.purchaseDate = some p)
    (hr : noRetirement item (parseDateFlexible host item.retirementDate) = true) :
    (calculateDailyCost host now item).daysUsed = max 0 (ceilDays (now - p)) ∧
    (calculateDailyCost host now item).totalDays = .infinity ∧
    (0 < (calculateDailyCost host now item).daysUsed →
      (calculateDailyCost host now item).dailyCost
        = toFixed2 (jsDiv item.price (calculateDailyCost host now item).daysUsed) ∧
      |(calculateDailyCost host now item).dailyCost.value
          - item.price / (calculateDailyCost host now item).daysUsed|
        ≤ 1 / 200 + |item.price / (calculateDailyCost host now item).daysUsed| / 2 ^ (53 : ℕ)) ∧
    ((calculateDailyCost host now item).daysUsed = 0 →
      (calculateDailyCost host now item).dailyCost = Fixed2.zero ∧
      (calculateDailyCost host now item).dailyCost.text = "0.00") := by
  rw [calculateDailyCost_indefinite host now item p hp hr]
  refine ⟨rfl, rfl, ?_, ?_⟩
  · intro h
    simp only at h
    simp only [gt_iff_lt, h, if_true, true_and]
    have h1 := value_toFixed2_near (jsDiv item.price ((max 0 (ceilDays (now - p)) : Int) : ℚ))
    have h2 := toDouble_error_abs (item.price / ((max 0 (ceilDays (now - p)) : Int) : ℚ))
    have h3 := abs_sub_le
      (toFixed2 (jsDiv item.price ((max 0 (ceilDays (now - p)) : Int) : ℚ))).value
      (jsDiv item.price ((max 0 (ceilDays (now - p)) : Int) : ℚ))
      (item.price / ((max 0 (ceilDays (now - p)) : Int) : ℚ))
    unfold jsDiv at h1 h3 ⊢
    linarith
  · intro h
    simp only at h
    simp only [h, gt_iff_lt, lt_self_iff_false, if_false]
    exact ⟨trivial, text_zero⟩

/-- C6, witness: the first end-to-end example (price 1200, bought 2024-01-01, looked at at
2024-01-31) has 30 days used, daily cost "40.00" and consumed value "1200.00".  An item
bought for 201 and looked at 200 days later has daily cost "1.00" and consumed value
"200.00": the Number 201 / 200 lies just below 1.005. -/
theorem calculateDailyCost_indefinite_fields_witness :
    ((calculateDailyCost strictHost jan31of2024 exampleOpenItem).daysUsed = 30 ∧
      (calculateDailyCost strictHost jan31of2024 exampleOpenItem).totalDays = .infinity ∧
      (calculateDailyCost strictHost jan31of2024 exampleOpenItem).dailyCost.text = "40.00" ∧
      (calculateDailyCost strictHost jan31of2024 exampleOpenItem).consumedValue.text
        = "1200.00") ∧
    ((calculateDailyCost strictHost 17280000000 halfCentItem).daysUsed = 200 ∧
      (calculateDailyCost strictHost 17280000000 halfCentItem).dailyCost
        = toFixed2 (jsDiv halfCentItem.price (200 : Int)) ∧
      (calculateDailyCost strictHost 17280000000 halfCentItem).dailyCost.text = "1.00" ∧
      (calculateDailyCost strictHost 17280000000 halfCentItem).consumedValue.text = "200.00" ∧
      jsDiv halfCentItem.price (200 : Int) < 201 / 200) := by
  have h := calculateDailyCost_indefinite_fields strictHost 17280000000 halfCentItem 0
    (by rfl) (by rfl)
  have hopen := calculateDailyCost_exampleOpenItem
  have hhalf := calculateDailyCost_halfCentItem
  obtain ⟨_, _, hc, _⟩ := h
  have hdaily := (hc (by rw [hhalf]; decide)).1
  have hdays : (calculateDailyCost strictHost 17280000000 halfCentItem).daysUsed = 200 := by
    rw [hhalf]
  rw [hdays] at hdaily
  refine ⟨?_, hdays, hdaily, ?_, ?_, ?_⟩
  · rw [hopen]
    exact ⟨rfl, rfl, by decide, by decide⟩
  · rw [hhalf]
    decide
  · rw [hhalf]
    decide
  · simp only [halfCentItem, jsDiv, Int.cast_ofNat]
    rw [toDouble_eq_of 0 4526117625507348 (by norm_num) (by norm_num) (by norm_num)
      (by norm_num [abs_lt])]
    norm_num

/-! ### Zero-length lifespans -/

theorem netCost_eq_specNetCost (item : Item) :
    (if item.sold then jsSub item.price item.soldValue else item.price) = specNetCost item := by
  unfold specNetCost Item.sold Item.soldValue
  cases item.soldPrice with
  | none => simp
  | some s =>
    by_cases hs : s = 0
    · simp [hs]
    · simp [hs]

theorem value_toFixed2_intCents (c : ℤ) :
    (toFixed2 ((c : ℚ) / 100)).value = (c : ℚ) / 100 := by
  by_cases hc : 0 ≤ c
  · obtain ⟨n, rfl⟩ := Int.eq_ofNat_of_zero_le hc
    have h := toFixed2_cents n
    rw [Int.cast_natCast, h]
    simp [Fixed2.value]
  · have hneg : (c : ℚ) / 100 < 0 := by
      have : (c : ℚ) < 0 := by exact_mod_cast not_le.mp hc
      linarith
    have hfloor : ⌊-((c : ℚ) / 100) * 100 + 1 / 2⌋ = -c := by
      rw [Int.floor_eq_iff]
      constructor
      · push_cast
        linarith
      · push_cast
        linarith
    unfold toFixed2
    rw [if_pos hneg, hfloor]
    simp only [Fixed2.value, if_true]
    have hnat : ((((-c).toNat : ℕ) : ℤ) : ℚ) = ((-c : ℤ) : ℚ) := by
      rw [Int.toNat_of_nonneg (by omega)]
    rw [Int.cast_natCast] at hnat
    rw [hnat]
    push_cast
    ring

/-- C7, counterexample: an item of price 0.0009765625 bought and retired at the same
instant (`totalDays = 0`) has consumed value "0.00", which read as a number is not its net
cost. -/
theorem consumedValue_rounds_net_cost :
    parseDateFlexible strictHost sameDayItem.purchaseDate = some 0 ∧
    parseDateFlexible strictHost sameDayItem.retirementDate = some 0 ∧
    ceilDays (0 - 0) ≤ 0 ∧
    (calculateDailyCost strictHost 0 sameDayItem).consumedValue = ⟨false, 0⟩ ∧
    (calculateDailyCost strictHost 0 sameDayItem).consumedValue.value
      ≠ specNetCost sameDayItem ∧
    (calculateDailyCost strictHost 0 sameDayItem).consumedValue.parseFloat
      ≠ specNetCost sameDayItem := by
  have hd : ceilDays (0 - 0) = 0 := ceilDays_eq_of (by decide) (by decide)
  have hs : sameDayItem.sold = false := by rfl
  have h1 : toFixed2 sameDayItem.price = ⟨false, 0⟩ :=
    toFixed2_eq_of (by norm_num [sameDayItem]) (by norm_num [sameDayItem])
      (by norm_num [sameDayItem])
  have hc : (calculateDailyCost strictHost 0 sameDayItem).consumedValue = ⟨false, 0⟩ := by
    rw [calculateDailyCost_retired strictHost 0 sameDayItem 0 0 (by rfl) (by rfl)]
    simp only [hd, hs]
    rw [if_pos (le_refl 0)]
    simp only [Bool.false_eq_true, if_false]
    exact h1
  have hzero : (⟨false, 0⟩ : Fixed2).parseFloat = 0 := parseFloat_zero
  refine ⟨by rfl, by rfl, le_of_eq hd, hc, ?_, ?_⟩
  · rw [hc]
    norm_num [Fixed2.value, specNetCost, sameDayItem]
  · rw [hc, hzero]
    norm_num [specNetCost, sameDayItem]

/-- C7, amended: for a retired item (parseable purchase date `p`, retirement date parsing
to `r`) with `totalDays = ceil((r − p) / 1 day) ≤ 0`, `dailyCost` is "0.00" and
`consumedValue` is the net cost (`price − soldPrice` when `soldPrice` is present, `price`
otherwise) rounded to two decimals by `toFixed(2)`; it equals the net cost exactly
whenever the net cost is a whole number of hundredths, as the decimal number that the text
denotes and, the net cost being a Number, as the result of `parseFloat`. -/
theorem calculateDailyCost_zero_lifespan (host : Host) (now : Int) (item : Item) (p r : Int)
    (hp : parseDateFlexible host item.purchaseDate = some p)
    (hr : parseDateFlexible host item.retirementDate = some r)
    (hd : ceilDays (r - p) ≤ 0) :
    (calculateDailyCost host now item).dailyCost = Fixed2.zero ∧
    (calculateDailyCost host now item).dailyCost.text = "0.00" ∧
    (calculateDailyCost host now item).consumedValue = toFixed2 (specNetCost item) ∧
    ∀ c : ℤ, specNetCost item = (c : ℚ) / 100 →
      (calculateDailyCost host now item).consumedValue.value = specNetCost item ∧
      (toDouble (specNetCost item) = specNetCost item →
        (calculateDailyCost host now item).consumedValue.parseFloat = specNetCost item) := by
  rw [calculateDailyCost_retired host now item p r hp hr, if_pos hd, netCost_eq_specNetCost]
  refine ⟨rfl, text_zero, rfl, ?_⟩
  intro c hc
  have hv : (toFixed2 (specNetCost item)).value = specNetCost item := by
    rw [hc, value_toFixed2_intCents]
  refine ⟨hv, ?_⟩
  intro hnum
  simp only [Fixed2.parseFloat]
  rw [hv, hnum]

/-- C7, witness: an item bought for 250 and sold for 100 at the instant of its purchase has
daily cost "0.00" and consumed value 150, its net cost. -/
theorem calculateDailyCost_zero_lifespan_witness :
    (calculateDailyCost strictHost 0 resoldAtOnce).dailyCost.text = "0.00" ∧
    specNetCost resoldAtOnce = 150 ∧
    (calculateDailyCost strictHost 0 resoldAtOnce).consumedValue.value
      = specNetCost resoldAtOnce ∧
    (calculateDailyCost strictHost 0 resoldAtOnce).consumedValue.parseFloat
      = specNetCost resoldAtOnce := by
  have h := calculateDailyCost_zero_lifespan strictHost 0 resoldAtOnce 0 0 (by rfl) (by rfl)
    (le_of_eq (ceilDays_eq_of (by decide) (by decide)))
  have h150 : toDouble 150 = 150 := by
    have := toDouble_intCast 150 (by norm_num)
    simpa using this
  have hn : specNetCost resoldAtOnce = 150 := by
    simp only [specNetCost, resoldAtOnce, jsSub]
    norm_num
    exact h150
  have hc := h.2.2.2 15000 (by rw [hn]; norm_num)
  exact ⟨h.2.1, hn, hc.1, hc.2 (by rw [hn]; exact h150)⟩

/-! ### Missing purchase date -/

/-- C8: when the purchase date normalises to Absent (`parseDateFlexible` returns `null`),
whatever the other fields and `now` are, `calculateDailyCost` returns the zeroed record:
`dailyCost` "0.00", `totalDays` 0, `daysUsed` 0, `consumedValue` "0.00" (and no
`originalDailyCost`). -/
theorem calculateDailyCost_absent_purchaseDate (host : Host) (now : Int) (item : Item)
    (hp : parseDateFlexible host item.purchaseDate = none) :
    calculateDailyCost host now item = ⟨Fixed2.zero, none, .finite 0, 0, Fixed2.zero⟩ ∧
    (calculateDailyCost host now item).dailyCost.text = "0.00" ∧
    (calculateDailyCost host now item).consumedValue.text = "0.00" := by
  have h : calculateDailyCost host now item = ⟨Fixed2.zero, none, .finite 0, 0, Fixed2.zero⟩ := by
    unfold calculateDailyCost
    simp only [hp]
  rw [h]
  exact ⟨rfl, text_zero, text_zero⟩

/-- C8, witness: an item whose purchase date is the empty string, whatever its price, sale
price, warranty and retirement dates, gets the zeroed record. -/
theorem calculateDailyCost_absent_purchaseDate_witness :
    calculateDailyCost strictHost jan31of2024 undatedItem
        = ⟨Fixed2.zero, none, .finite 0, 0, Fixed2.zero⟩ ∧
    (calculateDailyCost strictHost jan31of2024 undatedItem).dailyCost.text = "0.00" ∧
    (calculateDailyCost strictHost jan31of2024 undatedItem).consumedValue.text = "0.00" :=
  calculateDailyCost_absent_purchaseDate strictHost jan31of2024 undatedItem (by rfl)

/-! ### Numeric timestamps and sentinels -/

theorem truncate_intCast (k : ℤ) : truncate (k : ℚ) = k := by
  unfold truncate
  split
  · exact Int.ceil_intCast k
  · exact Int.floor_intCast k

theorem timeClip_intCast (k : ℤ) :
    timeClip (k : ℚ) = if |k| > 8640000000000000 then none else some k := by
  unfold timeClip
  rw [truncate_intCast]
  have h : (|(k : ℚ)| > 8640000000000000) ↔ (|k| > 8640000000000000) := by
    rw [← Int.cast_abs]
    exact_mod_cast Iff.rfl
  by_cases hk : |k| > 8640000000000000
  · rw [if_pos hk, if_pos (h.mpr hk)]
  · rw [if_neg hk, if_neg (fun hq => hk (h.mp hq))]

theorem parseDateFlexible_int (host : Host) (n : ℤ) :
    parseDateFlexible host (.num (.fin (n : ℚ)))
      = if n = 0 then none
        else if n > 100000000000 then timeClip ((n : ℤ) : ℚ)
        else timeClip (((n * 1000 : ℤ)) : ℚ) := by
  by_cases h0 : n = 0
  · subst h0
    simp [parseDateFlexible, JsValue.truthy, JsValue.isZero]
  · have hq : (n : ℚ) ≠ 0 := by exact_mod_cast h0
    rw [if_neg h0]
    have hgt : ((n : ℚ) > 100000000000) ↔ (n > 100000000000) := by
      exact_mod_cast Iff.rfl
    simp only [parseDateFlexible, JsValue.truthy, JsValue.isZero, JsValue.isNull,
      JsValue.isStrZero, hq, scaleTimestamp, dateOfNumber]
    by_cases hn : n > 100000000000
    · simp [hn, hgt.mpr hn, h0]
    · have hn2 : ¬ (n : ℚ) > 100000000000 := fun h => hn (hgt.mp h)
      simp [hn, hn2, h0]

/-- C9, counterexample: the integer 0 is not read as the instant 0 seconds after the
epoch but as Absent, and the integer 8640000000000001, above 1e11, is not read as that
many milliseconds after the epoch but as Absent. -/
theorem integer_zero_and_overflow_are_absent :
    ((0 : ℤ) ≤ 100000000000 ∧
      parseDateFlexible strictHost (.num (.fin ((0 : ℤ) : ℚ))) ≠ some (0 * 1000)) ∧
    ((8640000000000001 : ℤ) > 100000000000 ∧
      parseDateFlexible strictHost (.num (.fin ((8640000000000001 : ℤ) : ℚ)))
        ≠ some 8640000000000001) := by
  refine ⟨⟨by decide, ?_⟩, ⟨by decide, ?_⟩⟩
  · rw [parseDateFlexible_int, if_pos rfl]
    simp
  · rw [parseDateFlexible_int, if_neg (by decide), if_pos (by decide), timeClip_intCast,
      if_pos (by decide)]
    simp

/-- C9, amended: for every integer `n` other than 0 with −8640000000000 ≤ n ≤ 100000000000,
`parseDateFlexible(n)` is the instant `n` seconds (`n * 1000` milliseconds) after the Unix
epoch, and for every integer `n` with 100000000000 < n ≤ 8640000000000000 it is the instant
`n` milliseconds after the epoch; for 0 and for the integers outside these two ranges
(beyond the range of a `Date`) it is Absent. -/
theorem parseDateFlexible_integer (host : Host) (n : ℤ) :
    (n ≠ 0 → -8640000000000 ≤ n → n ≤ 100000000000 →
      parseDateFlexible host (.num (.fin (n : ℚ))) = some (n * 1000)) ∧
    (100000000000 < n → n ≤ 8640000000000000 →
      parseDateFlexible host (.num (.fin (n : ℚ))) = some n) ∧
    (n = 0 ∨ n < -8640000000000 ∨ 8640000000000000 < n →
      parseDateFlexible host (.num (.fin (n : ℚ))) = none) := by
  refine ⟨?_, ?_, ?_⟩
  · intro h0 hlo hhi
    rw [parseDateFlexible_int, if_neg h0, if_neg (by omega), timeClip_intCast, if_neg]
    rw [gt_iff_lt, not_lt, abs_le]
    constructor <;> omega
  · intro hlo hhi
    rw [parseDateFlexible_int, if_neg (by omega), if_pos (by omega), timeClip_intCast, if_neg]
    rw [gt_iff_lt, not_lt, abs_le]
    constructor <;> omega
  · intro h
    rw [parseDateFlexible_int]
    rcases h with h | h | h
    · rw [if_pos h]
    · rw [if_neg (by omega), if_neg (by omega), timeClip_intCast, if_pos]
      rw [gt_iff_lt, lt_abs]
      right
      omega
    · rw [if_neg (by omega), if_pos (by omega), timeClip_intCast, if_pos]
      rw [gt_iff_lt, lt_abs]
      left
      omega

/-- C9, witness: the boundary: 1e11 is read as seconds and 1e11 + 1 as milliseconds. -/
theorem parseDateFlexible_integer_witness :
    parseDateFlexible strictHost (.num (.fin ((100000000000 : ℤ) : ℚ)))
      = some (100000000000 * 1000) ∧
    parseDateFlexible strictHost (.num (.fin ((100000000001 : ℤ) : ℚ)))
      = some 100000000001 :=
  ⟨(parseDateFlexible_integer strictHost 100000000000).1 (by decide) (by decide) (by decide),
    (parseDateFlexible_integer strictHost 100000000001).2.1 (by decide) (by decide)⟩

/-- C10: `parseDateFlexible` returns Absent (`null`) for each of the sentinel inputs
`null`, `0`, `"0"`, `""` and `undefined`. -/
theorem parseDateFlexible_sentinels (host : Host) :
    parseDateFlexible host .null = none ∧
    parseDateFlexible host (.num (.fin 0)) = none ∧
    parseDateFlexible host (.str "0") = none ∧
    parseDateFlexible host (.str "") = none ∧
    parseDateFlexible host .undefined = none := by
  refine ⟨rfl, ?_, rfl, rfl, rfl⟩
  simp [parseDateFlexible, JsValue.truthy, JsValue.isZero]

/-! ### Clock independence, original daily cost, signs -/

theorem toFixed2_eq_of_neg {x : ℚ} {c : ℕ} (h1 : (c : ℚ) ≤ -x * 100 + 1 / 2)
    (h2 : -x * 100 + 1 / 2 < (c : ℚ) + 1) (h0 : x < 0) : toFixed2 x = ⟨true, c⟩ := by
  unfold toFixed2
  rw [if_pos h0]
  have h : ⌊-x * 100 + 1 / 2⌋ = (c : ℤ) := by
    rw [Int.floor_eq_iff]
    exact ⟨by exact_mod_cast h1, by exact_mod_cast h2⟩
  rw [h, Int.toNat_natCast]

theorem parseDate_retirement_of_not_noRetirement (host : Host) (item : Item)
    (h : noRetirement item (parseDateFlexible host item.retirementDate) = false) :
    ∃ r, parseDateFlexible host item.retirementDate = some r := by
  rw [noRetirement_eq_isNone] at h
  cases hr : parseDateFlexible host item.retirementDate with
  | none => rw [hr] at h; simp at h
  | some r => exact ⟨r, rfl⟩

/-- C13: for a retired item (parseable purchase date `p`, retirement date parsing to `r`)
and any two instants `now1` and `now2`, `calculateDailyCost` returns the same record, and
its `daysUsed` is `max(0, ceil((r − p) / 1 day))`: the result does not depend on the
clock. -/
theorem calculateDailyCost_retired_ignores_clock (host : Host) (now1 now2 : Int) (item : Item)
    (p r : Int)
    (hp : parseDateFlexible host item.purchaseDate = some p)
    (hr : parseDateFlexible host item.retirementDate = some r) :
    calculateDailyCost host now1 item = calculateDailyCost host now2 item ∧
    (calculateDailyCost host now1 item).daysUsed = max 0 (ceilDays (r - p)) := by
  rw [calculateDailyCost_retired host now1 item p r hp hr,
    calculateDailyCost_retired host now2 item p r hp hr]
  refine ⟨rfl, ?_⟩
  split <;> rfl

/-- C13, witness: the sold item of the second end-to-end example gives the same record at
the epoch and at 2024-01-31, with 90 days used. -/
theorem calculateDailyCost_retired_ignores_clock_witness :
    calculateDailyCost strictHost 0 exampleSoldItem
      = calculateDailyCost strictHost jan31of2024 exampleSoldItem ∧
    (calculateDailyCost strictHost 0 exampleSoldItem).daysUsed
      = max 0 (ceilDays (1680307200000 - 1672531200000)) :=
  calculateDailyCost_retired_ignores_clock strictHost 0 jan31of2024 exampleSoldItem
    1672531200000 1680307200000 (by rfl) (by rfl)

/-- C14, counterexample: an item bought for 250 and sold for 100 at the instant of its
purchase is retired with `totalDays = 0`, not a positive lifespan, and still gets a
present `originalDailyCost`, the text "0.00". -/
theorem originalDailyCost_present_without_lifespan :
    (calculateDailyCost strictHost 0 resoldAtOnce).originalDailyCost = some Fixed2.zero ∧
    (calculateDailyCost strictHost 0 resoldAtOnce).originalDailyCost ≠ none ∧
    (calculateDailyCost strictHost 0 resoldAtOnce).totalDays = .finite 0 ∧
    ¬ (0 : Int) < 0 := by
  have hd : ceilDays (0 - 0) = 0 := ceilDays_eq_of (by decide) (by decide)
  have hs : resoldAtOnce.sold = true := by
    simp [Item.sold, resoldAtOnce]
  have h : calculateDailyCost strictHost 0 resoldAtOnce
      = ⟨Fixed2.zero, some Fixed2.zero, .finite 0, 0,
          toFixed2 (jsSub resoldAtOnce.price resoldAtOnce.soldValue)⟩ := by
    rw [calculateDailyCost_retired strictHost 0 resoldAtOnce 0 0 (by rfl) (by rfl)]
    simp only [hd, hs]
    rw [if_pos (le_refl 0)]
    simp
  rw [h]
  exact ⟨rfl, by simp, rfl, by decide⟩

/-- C14, amended: for every item and every `now`, `calculateDailyCost` returns a present
(non-null) `originalDailyCost` only when the item has a sale price other than zero and is
retired (purchase and retirement dates both parse); then it is the Number
`price / totalDays` rounded to two decimals by `toFixed(2)` when `totalDays > 0`, and the
text "0.00" when `totalDays ≤ 0`. -/
theorem originalDailyCost_present_only_if (host : Host) (now : Int) (item : Item) (x : Fixed2)
    (hx : (calculateDailyCost host now item).originalDailyCost = some x) :
    (∃ s, item.soldPrice = some s ∧ s ≠ 0) ∧
    ∃ p r, parseDateFlexible host item.purchaseDate = some p ∧
      parseDateFlexible host item.retirementDate = some r ∧
      (calculateDailyCost host now item).totalDays = .finite (ceilDays (r - p)) ∧
      (0 < ceilDays (r - p) → x = toFixed2 (jsDiv item.price (ceilDays (r - p)))) ∧
      (ceilDays (r - p) ≤ 0 → x = Fixed2.zero) := by
  cases hp : parseDateFlexible host item.purchaseDate with
  | none =>
    have h : calculateDailyCost host now item = ⟨Fixed2.zero, none, .finite 0, 0, Fixed2.zero⟩ := by
      unfold calculateDailyCost
      simp only [hp]
    rw [h] at hx
    simp at hx
  | some p =>
    cases hn : noRetirement item (parseDateFlexible host item.retirementDate) with
    | true =>
      rw [calculateDailyCost_indefinite host now item p hp hn] at hx
      simp at hx
    | false =>
      obtain ⟨r, hr⟩ := parseDate_retirement_of_not_noRetirement host item hn
      rw [calculateDailyCost_retired host now item p r hp hr] at hx ⊢
      have hsold : item.sold = true := by
        by_contra hns
        simp only [Bool.not_eq_true] at hns
        rw [hns] at hx
        split at hx <;> simp at hx
      have hsp : ∃ s, item.soldPrice = some s ∧ s ≠ 0 := by
        unfold Item.sold at hsold
        cases hsv : item.soldPrice with
        | none => rw [hsv] at hsold; simp at hsold
        | some s =>
          rw [hsv] at hsold
          exact ⟨s, rfl, by simpa using hsold⟩
      refine ⟨hsp, p, r, rfl, hr, ?_, ?_, ?_⟩
      · split <;> rfl
      · intro hpos
        rw [if_neg (not_le.mpr hpos), hsold] at hx
        simp only [if_true, Option.some.injEq] at hx
        exact hx.symm
      · intro hle
        rw [if_pos hle, hsold] at hx
        simp only [if_true, Option.some.injEq] at hx
        exact hx.symm

/-- C14, witness: the sold item of the second end-to-end example has the original daily
cost 11.11; it carries a sale price and both its dates parse. -/
theorem originalDailyCost_present_only_if_witness :
    (∃ s, exampleSoldItem.soldPrice = some s ∧ s ≠ 0) ∧
    ∃ p r, parseDateFlexible strictHost exampleSoldItem.purchaseDate = some p ∧
      parseDateFlexible strictHost exampleSoldItem.retirementDate = some r ∧
      (calculateDailyCost strictHost 0 exampleSoldItem).totalDays = .finite (ceilDays (r - p)) ∧
      (0 < ceilDays (r - p) →
        (⟨false, 1111⟩ : Fixed2) = toFixed2 (jsDiv exampleSoldItem.price (ceilDays (r - p)))) ∧
      (ceilDays (r - p) ≤ 0 → (⟨false, 1111⟩ : Fixed2) = Fixed2.zero) :=
  originalDailyCost_present_only_if strictHost 0 exampleSoldItem ⟨false, 1111⟩
    (by rw [calculateDailyCost_exampleSoldItem])

/-- C15, counterexample: an item bought for 100 and sold for 150 ten days later has the
daily cost "-5.00" and the consumed value "-50.00", both negative. -/
theorem negative_cost_when_sold_at_profit :
    0 ≤ soldAtProfit.price ∧
    (calculateDailyCost strictHost 0 soldAtProfit).dailyCost = ⟨true, 500⟩ ∧
    (calculateDailyCost strictHost 0 soldAtProfit).consumedValue = ⟨true, 5000⟩ ∧
    ¬ 0 ≤ (calculateDailyCost strictHost 0 soldAtProfit).dailyCost.parseFloat ∧
    ¬ 0 ≤ (calculateDailyCost strictHost 0 soldAtProfit).consumedValue.parseFloat ∧
    ¬ 0 ≤ (calculateDailyCost strictHost 0 soldAtProfit).dailyCost.value ∧
    ¬ 0 ≤ (calculateDailyCost strictHost 0 soldAtProfit).consumedValue.value := by
  have hd : ceilDays (864000000 - 0) = 10 := ceilDays_eq_of (by decide) (by decide)
  have hs : soldAtProfit.sold = true := by
    simp [Item.sold, soldAtProfit]
  have hmax : max (0 : Int) 10 = 10 := by decide
  have s50 : toDouble (100 - 150) = -50 := by
    have h := toDouble_intCast (-50) (by norm_num)
    norm_num at h ⊢
    exact h
  have q5 : toDouble (-50 / 10) = -5 := by
    have h := toDouble_intCast (-5) (by norm_num)
    norm_num at h ⊢
    exact h
  have c5 : toFixed2 (-5) = ⟨true, 500⟩ :=
    toFixed2_eq_of_neg (by norm_num) (by norm_num) (by norm_num)
  have a5 : toDouble (-(500 / 100)) = -5 := by
    have h := toDouble_intCast (-5) (by norm_num)
    norm_num at h ⊢
    exact h
  have v50 : toDouble (-5 * 10) = -50 := by
    have h := toDouble_intCast (-50) (by norm_num)
    norm_num at h ⊢
    exact h
  have hmin : min (-50 : ℚ) (-50) = -50 := min_self _
  have c50 : toFixed2 (-50) = ⟨true, 5000⟩ :=
    toFixed2_eq_of_neg (by norm_num) (by norm_num) (by norm_num)
  have a50 : toDouble (-(5000 / 100)) = -50 := by
    have h := toDouble_intCast (-50) (by norm_num)
    norm_num at h ⊢
    exact h
  have h : calculateDailyCost strictHost 0 soldAtProfit
      = ⟨⟨true, 500⟩, some (toFixed2 (jsDiv 100 (10 : Int))), .finite 10, 10, ⟨true, 5000⟩⟩ := by
    rw [calculateDailyCost_retired strictHost 0 soldAtProfit 0 864000000 (by rfl) (by rfl)]
    simp only [hd, hs, if_true, hmax]
    rw [if_neg (by decide)]
    simp only [soldAtProfit, Item.soldValue, Option.getD, jsSub, s50]
    simp only [jsDiv, jsMul, Fixed2.parseFloat, Fixed2.value, Int.cast_ofNat, Nat.cast_ofNat,
      if_true, q5, c5, a5, v50, hmin, c50]
  rw [h]
  refine ⟨by norm_num [soldAtProfit], rfl, rfl, ?_, ?_, ?_, ?_⟩
  · simp only [Fixed2.parseFloat, Fixed2.value, Nat.cast_ofNat, if_true, a5]
    norm_num
  · simp only [Fixed2.parseFloat, Fixed2.value, Nat.cast_ofNat, if_true, a50]
    norm_num
  · norm_num [Fixed2.value]
  · norm_num [Fixed2.value]

/-- C15, amended: for every item with a non-negative price whose sale price, when present,
is at most the price, and for every `now`, the `dailyCost` and the `consumedValue` returned
by `calculateDailyCost`, read as numbers (by `parseFloat`, or as the decimal numbers that
the texts denote), are both non-negative. -/
theorem calculateDailyCost_nonneg (host : Host) (now : Int) (item : Item)
    (hprice : 0 ≤ item.price) (hsold : ∀ s, item.soldPrice = some s → s ≤ item.price) :
    (0 ≤ (calculateDailyCost host now item).dailyCost.parseFloat ∧
      0 ≤ (calculateDailyCost host now item).consumedValue.parseFloat) ∧
    (0 ≤ (calculateDailyCost host now item).dailyCost.value ∧
      0 ≤ (calculateDailyCost host now item).consumedValue.value) := by
  have hboth : (calculateDailyCost host now item).dailyCost.negative = false ∧
      (calculateDailyCost host now item).consumedValue.negative = false := by
    cases hp : parseDateFlexible host item.purchaseDate with
    | none =>
      have h : calculateDailyCost host now item
          = ⟨Fixed2.zero, none, .finite 0, 0, Fixed2.zero⟩ := by
        unfold calculateDailyCost
        simp only [hp]
      rw [h]
      exact ⟨rfl, rfl⟩
    | some p =>
      cases hn : noRetirement item (parseDateFlexible host item.retirementDate) with
      | true =>
        have hdays : (0 : ℚ) ≤ ((max 0 (ceilDays (now - p)) : Int) : ℚ) := by
          exact_mod_cast le_max_left 0 (ceilDays (now - p))
        have hdaily : (if max 0 (ceilDays (now - p)) > 0
            then toFixed2 (jsDiv item.price (max 0 (ceilDays (now - p)) : Int))
            else Fixed2.zero).negative = false := by
          split
          · exact toFixed2_negative_of_nonneg (toDouble_nonneg (div_nonneg hprice hdays))
          · rfl
        rw [calculateDailyCost_indefinite host now item p hp hn]
        refine ⟨hdaily, ?_⟩
        exact toFixed2_negative_of_nonneg (le_min hprice (parseFloat_toFixed2_nonneg
          (toDouble_nonneg (mul_nonneg (parseFloat_nonneg_of_not_negative hdaily) hdays))))
      | false =>
        obtain ⟨r, hr⟩ := parseDate_retirement_of_not_noRetirement host item hn
        have hnet : 0 ≤ (if item.sold then jsSub item.price item.soldValue else item.price) := by
          rw [netCost_eq_specNetCost]
          unfold specNetCost
          cases hs : item.soldPrice with
          | none => exact hprice
          | some s =>
            have := hsold s hs
            simp only
            split
            · exact hprice
            · exact toDouble_nonneg (by linarith)
        have hdays : (0 : ℚ) ≤ ((max 0 (ceilDays (r - p)) : Int) : ℚ) := by
          exact_mod_cast le_max_left 0 (ceilDays (r - p))
        rw [calculateDailyCost_retired host now item p r hp hr]
        by_cases hd : ceilDays (r - p) ≤ 0
        · rw [if_pos hd]
          exact ⟨rfl, toFixed2_negative_of_nonneg hnet⟩
        · rw [if_neg hd]
          have hpos : (0 : ℚ) ≤ ((ceilDays (r - p) : Int) : ℚ) := by
            exact_mod_cast le_of_lt (not_le.mp hd)
          have hq : 0 ≤ jsDiv (if item.sold then jsSub item.price item.soldValue
              else item.price) (ceilDays (r - p)) := toDouble_nonneg (div_nonneg hnet hpos)
          exact ⟨toFixed2_negative_of_nonneg hq, toFixed2_negative_of_nonneg (le_min hnet
            (toDouble_nonneg (mul_nonneg (parseFloat_toFixed2_nonneg hq) hdays)))⟩
  exact ⟨⟨parseFloat_nonneg_of_not_negative hboth.1, parseFloat_nonneg_of_not_negative hboth.2⟩,
    value_nonneg_of_not_negative hboth.1, value_nonneg_of_not_negative hboth.2⟩

/-- C15, witness: the sold item of the second end-to-end example (price 1000, sold for
400) has a non-negative daily cost and consumed value. -/
theorem calculateDailyCost_nonneg_witness :
    (0 ≤ (calculateDailyCost strictHost 0 exampleSoldItem).dailyCost.parseFloat ∧
      0 ≤ (calculateDailyCost strictHost 0 exampleSoldItem).consumedValue.parseFloat) ∧
    (0 ≤ (calculateDailyCost strictHost 0 exampleSoldItem).dailyCost.value ∧
      0 ≤ (calculateDailyCost strictHost 0 exampleSoldItem).consumedValue.value) :=
  calculateDailyCost_nonneg strictHost 0 exampleSoldItem (by norm_num [exampleSoldItem])
    (by
      intro s hs
      have h400 : s = 400 := by
        simp only [exampleSoldItem, Option.some.injEq] at hs
        exact hs.symm
      rw [h400]
      norm_num [exampleSoldItem])

/-! ### Future retirement dates and total value -/

theorem getItemStatus_of_not_retired (host : Host) (dict : Option Dict) (today : Int)
    (item : Item)
    (hnr : (!noRetirement item (parseDateFlexible host item.retirementDate)
        && notAfter (parseDateFlexible host item.retirementDate) today) = false) :
    getItemStatus host dict today item =
      match parseDateFlexible host item.warrantyDate with
      | none => ⟨match dict with | some d => d.statusActive | none => "使用中", "active-tag"⟩
      | some warrantyDate =>
        if warrantyDate < today then
          ⟨match dict with | some d => d.statusExpired | none => "已过保", "expired-tag"⟩
        else if ceilDays (warrantyDate - today) ≤ 30 ∧ ceilDays (warrantyDate - today) > 0 then
          ⟨match dict with
            | some d => d.statusExpiring (ceilDays (warrantyDate - today))
            | none => "保修即将到期 (" ++ toString (ceilDays (warrantyDate - today)) ++ "天)",
            "expiring-tag"⟩
        else ⟨match dict with | some d => d.statusActive | none => "使用中", "active-tag"⟩ := by
  unfold getItemStatus
  simp only [hnr]
  rfl

theorem className_ne_retired_of_not_retired (host : Host) (dict : Option Dict) (today : Int)
    (item : Item)
    (hnr : (!noRetirement item (parseDateFlexible host item.retirementDate)
        && notAfter (parseDateFlexible host item.retirementDate) today) = false) :
    (getItemStatus host dict today item).className ≠ "retired-tag" := by
  rw [getItemStatus_of_not_retired host dict today item hnr]
  cases parseDateFlexible host item.warrantyDate with
  | none => simp
  | some w =>
    simp only
    split
    · simp
    · split <;> simp

theorem not_retired_of_future (host : Host) (today : Int) (item : Item) (r : Int)
    (hr : parseDateFlexible host item.retirementDate = some r) (hfut : today < r) :
    (!noRetirement item (parseDateFlexible host item.retirementDate)
        && notAfter (parseDateFlexible host item.retirementDate) today) = false := by
  rw [hr]
  simp [notAfter, hfut]

/-- C16: for an item whose retirement date parses to an instant strictly after `today`,
`getItemStatus` does not return the retired status, and its result equals the result on the
same item with `retirementDate` replaced by `null`. -/
theorem getItemStatus_future_retirement (host : Host) (dict : Option Dict) (today : Int)
    (item : Item) (r : Int)
    (hr : parseDateFlexible host item.retirementDate = some r) (hfut : today < r) :
    (getItemStatus host dict today item).className ≠ "retired-tag" ∧
    getItemStatus host dict today item
      = getItemStatus host dict today { item with retirementDate := .null } := by
  have hnr := not_retired_of_future host today item r hr hfut
  have hnull : (!noRetirement { item with retirementDate := .null }
        (parseDateFlexible host ({ item with retirementDate := .null } : Item).retirementDate)
      && notAfter (parseDateFlexible host
        ({ item with retirementDate := .null } : Item).retirementDate) today) = false := by
    simp [noRetirement, JsValue.isNull]
  refine ⟨className_ne_retired_of_not_retired host dict today item hnr, ?_⟩
  rw [getItemStatus_of_not_retired host dict today item hnr,
    getItemStatus_of_not_retired host dict today _ hnull]

/-- C16, witness: an item whose retirement is planned for day 50, looked at at the epoch,
is not retired and has the status of the same item without retirement date. -/
theorem getItemStatus_future_retirement_witness :
    (getItemStatus strictHost none 0 retiresLater).className ≠ "retired-tag" ∧
    getItemStatus strictHost none 0 retiresLater
      = getItemStatus strictHost none 0 { retiresLater with retirementDate := .null } :=
  getItemStatus_future_retirement strictHost none 0 retiresLater 4320000000 (by rfl) (by decide)

theorem foldl_statisticsStep_fst (host : Host) (now : Int) (mode : Nat) (items : List Item)
    (acc : ℚ × ℚ) :
    (items.foldl (statisticsStep host now mode) acc).1
      = acc.1 + (((items.filter (counted host mode)).map (valueAdded mode)).sum) := by
  induction items generalizing acc with
  | nil => simp
  | cons item rest ih =>
    rw [List.foldl_cons, ih]
    by_cases hc : counted host mode item = true
    · have hstep : (statisticsStep host now mode acc item).1
          = acc.1 + valueAdded mode item := by
        unfold counted at hc
        unfold statisticsStep valueAdded
        simp only [Bool.not_eq_true', Bool.not_eq_true] at hc
        simp only [hc]
        by_cases hm : mode = 2
        · by_cases hs : item.sold = true
          · simp [hm, hs]
          · simp [hm, hs]
        · simp [hm]
      rw [hstep, List.filter_cons_of_pos hc, List.map_cons, List.sum_cons]
      ring
    · have hstep : statisticsStep host now mode acc item = acc := by
        unfold counted at hc
        unfold statisticsStep
        simp only [Bool.not_eq_true, Bool.not_eq_false'] at hc
        simp only [hc]
        simp
      rw [hstep, List.filter_cons_of_neg hc]

theorem updateStatistics_totalValue_eq (host : Host) (now : Int) (mode : Nat)
    (items : List Item) :
    (updateStatistics host now mode items).globalTotalValue
      = ((items.filter (counted host mode)).map (valueAdded mode)).sum := by
  unfold updateStatistics
  simp only [foldl_statisticsStep_fst, zero_add]

/-- C17: for every item list, the total value computed by `updateStatistics` is, in mode 0
(all-purchases), the sum of `price` over all items; in mode 1 (active-only), the sum of
`price` over the items that are not retired (retirement date `null`, `0`, `"0"` or
unparseable); in mode 2 (net-value), the sum over all items of `price − soldPrice` for the
items with a sale price and of `price` for the others. -/
theorem updateStatistics_totalValue (host : Host) (now : Int) (items : List Item) :
    (updateStatistics host now 0 items).globalTotalValue
      = (items.map (fun item => item.price)).sum ∧
    (updateStatistics host now 1 items).globalTotalValue
      = ((items.filter
            (fun item => noRetirement item (parseDateFlexible host item.retirementDate))).map
          (fun item => item.price)).sum ∧
    (updateStatistics host now 2 items).globalTotalValue
      = (items.map specNetCost).sum := by
  have h0 : counted host 0 = fun _ => true := by
    funext item; simp [counted]
  have h2 : counted host 2 = fun _ => true := by
    funext item; simp [counted]
  have h1 : counted host 1
      = fun item => noRetirement item (parseDateFlexible host item.retirementDate) := by
    funext item; simp [counted]
  have v0 : valueAdded 0 = fun item => item.price := by
    funext item; simp [valueAdded]
  have v1 : valueAdded 1 = fun item => item.price := by
    funext item; simp [valueAdded]
  have v2 : valueAdded 2 = specNetCost := by
    funext item
    rw [← netCost_eq_specNetCost]
    simp [valueAdded]
  refine ⟨?_, ?_, ?_⟩
  · rw [updateStatistics_totalValue_eq, h0, List.filter_true, v0]
  · rw [updateStatistics_totalValue_eq, h1, v1]
  · rw [updateStatistics_totalValue_eq, h2, List.filter_true, v2]

/-- C19: an item whose retirement date parses to an instant strictly after `now` is left
out of the total value by `updateStatistics` in active-only mode (`currentCalcMode = 1`):
the total of a list holding it equals the total of the list without it; yet
`getItemStatus` at the same `now` does not give it the retired status. -/
theorem future_retirement_skipped_but_not_retired (host : Host) (dict : Option Dict)
    (now : Int) (item : Item) (r : Int) (before after : List Item)
    (hr : parseDateFlexible host item.retirementDate = some r) (hfut : now < r) :
    (updateStatistics host now 1 (before ++ item :: after)).globalTotalValue
      = (updateStatistics host now 1 (before ++ after)).globalTotalValue ∧
    statisticsStep host now 1 (0, 0) item = (0, 0) ∧
    (getItemStatus host dict now item).className ≠ "retired-tag" := by
  have hn : noRetirement item (parseDateFlexible host item.retirementDate) = false := by
    rw [noRetirement_eq_isNone, hr]; rfl
  have hc : ¬ counted host 1 item = true := by
    simp [counted, hn]
  refine ⟨?_, ?_, className_ne_retired_of_not_retired host dict now item
    (not_retired_of_future host now item r hr hfut)⟩
  · rw [updateStatistics_totalValue_eq, updateStatistics_totalValue_eq, List.filter_append,
      List.filter_cons_of_neg hc, List.filter_append]
  · unfold statisticsStep
    simp [hn]

/-- C19, witness: an item of price 800 whose retirement is planned for day 50 adds nothing
to the active-only total at the epoch, where its status is not retired. -/
theorem future_retirement_skipped_but_not_retired_witness :
    (updateStatistics strictHost 0 1 ([exampleOpenItem] ++ retiresLater :: [])).globalTotalValue
      = (updateStatistics strictHost 0 1 ([exampleOpenItem] ++ [])).globalTotalValue ∧
    statisticsStep strictHost 0 1 (0, 0) retiresLater = (0, 0) ∧
    (getItemStatus strictHost none 0 retiresLater).className ≠ "retired-tag" :=
  future_retirement_skipped_but_not_retired strictHost none 0 retiresLater 4320000000
    [exampleOpenItem] [] (by rfl) (by decide)

/-! ### Theme pill -/

/-- C18: evaluation of one click on the theme pill on a page where `#themeSwitcher`,
`#themeToggle` and `#langSwitcher` exist, for each stored mode, each order in which the two
scripts ran and each system preference: the stored mode moves two steps along the cycle
auto → light → dark → auto (auto to dark, light to auto, dark to light), not one. -/
theorem themePill_click_advances_two_modes :
    ∀ langFirst prefersDark : Bool,
      (cycleNext "auto" = "light" ∧
        getStoredTheme (pageLoaded langFirst (freshPage (some "auto") prefersDark)) = "auto" ∧
        getStoredTheme (clickThemePill langFirst
          (pageLoaded langFirst (freshPage (some "auto") prefersDark))) = "dark") ∧
      (cycleNext "light" = "dark" ∧
        getStoredTheme (pageLoaded langFirst (freshPage (some "light") prefersDark)) = "light" ∧
        getStoredTheme (clickThemePill langFirst
          (pageLoaded langFirst (freshPage (some "light") prefersDark))) = "auto") ∧
      (cycleNext "dark" = "auto" ∧
        getStoredTheme (pageLoaded langFirst (freshPage (some "dark") prefersDark)) = "dark" ∧
        getStoredTheme (clickThemePill langFirst
          (pageLoaded langFirst (freshPage (some "dark") prefersDark))) = "light") := by
  intro langFirst prefersDark
  cases langFirst <;> cases prefersDark <;> decide

/-! ### Calendar dates -/

theorem dayFromYear_succ (y : Int) :
    dayFromYear (y + 1) = dayFromYear y + 365 + (if isLeapYear y then 1 else 0) := by
  unfold dayFromYear isLeapYear
  by_cases h4 : y % 4 = 0 <;> by_cases h100 : y % 100 = 0 <;> by_cases h400 : y % 400 = 0 <;>
    simp [h4, h100, h400] <;> omega

theorem dayFromYear_strictMono : StrictMono dayFromYear := by
  apply strictMono_int_of_lt_succ
  intro y
  rw [dayFromYear_succ]
  split <;> omega

theorem dayFromYear_estimate_low (n : Int) :
    dayFromYear (1970 + (400 * n) / 146097 - 1) ≤ n := by
  unfold dayFromYear
  omega

theorem dayFromYear_estimate_high (n : Int) :
    n < dayFromYear (1970 + (400 * n) / 146097 + 2) := by
  unfold dayFromYear
  omega

theorem yearFromDay_eq (y n : Int) (h1 : dayFromYear y ≤ n) (h2 : n < dayFromYear (y + 1)) :
    yearFromDay n = y := by
  have hlow := dayFromYear_estimate_low n
  have hhigh := dayFromYear_estimate_high n
  have hm := dayFromYear_strictMono
  have ha : 1970 + (400 * n) / 146097 - 1 < y + 1 :=
    hm.lt_iff_lt.mp (lt_of_le_of_lt hlow h2)
  have hb : y < 1970 + (400 * n) / 146097 + 2 :=
    hm.lt_iff_lt.mp (lt_of_le_of_lt h1 hhigh)
  unfold yearFromDay
  simp only
  split
  · rename_i hlt
    have hc : y < 1970 + (400 * n) / 146097 := hm.lt_iff_lt.mp (lt_of_le_of_lt h1 hlt)
    omega
  · split
    · rename_i hge
      have hc : 1970 + (400 * n) / 146097 + 1 < y + 1 :=
        hm.lt_iff_lt.mp (lt_of_le_of_lt hge h2)
      omega
    · rename_i hnlt hnge
      have hc : 1970 + (400 * n) / 146097 < y + 1 :=
        hm.lt_iff_lt.mp (lt_of_le_of_lt (not_lt.mp hnlt) h2)
      have hd : y < 1970 + (400 * n) / 146097 + 1 :=
        hm.lt_iff_lt.mp (lt_of_le_of_lt h1 (not_le.mp hnge))
      omega

theorem daysBeforeMonth_add_lt (y : Int) (m d : Nat) (hm1 : 1 ≤ m) (hm12 : m ≤ 12)
    (hd1 : 1 ≤ d) (hd : d ≤ daysInMonth y m) :
    (daysBeforeMonth y m : Int) + (d - 1 : Int)
      < 365 + (if isLeapYear y then 1 else 0) := by
  interval_cases m <;> cases hl : isLeapYear y <;>
    simp [daysBeforeMonth, daysInMonth, hl, List.range_succ] at hd ⊢ <;> omega

theorem monthAndDay_of_bounds (leap : Bool) (m d : Nat) (b : Int) (k : Int)
    (hk : k = b + (d - 1 : Int)) (hd1 : 1 ≤ d)
    (hrow : (m = 1 ∧ b = 0 ∧ d ≤ 31) ∨
      (m = 2 ∧ b = 31 ∧ (d : Int) ≤ 28 + (if leap then 1 else 0)) ∨
      (m = 3 ∧ b = 59 + (if leap then 1 else 0) ∧ d ≤ 31) ∨
      (m = 4 ∧ b = 90 + (if leap then 1 else 0) ∧ d ≤ 30) ∨
      (m = 5 ∧ b = 120 + (if leap then 1 else 0) ∧ d ≤ 31) ∨
      (m = 6 ∧ b = 151 + (if leap then 1 else 0) ∧ d ≤ 30) ∨
      (m = 7 ∧ b = 181 + (if leap then 1 else 0) ∧ d ≤ 31) ∨
      (m = 8 ∧ b = 212 + (if leap then 1 else 0) ∧ d ≤ 31) ∨
      (m = 9 ∧ b = 243 + (if leap then 1 else 0) ∧ d ≤ 30) ∨
      (m = 10 ∧ b = 273 + (if leap then 1 else 0) ∧ d ≤ 31) ∨
      (m = 11 ∧ b = 304 + (if leap then 1 else 0) ∧ d ≤ 30) ∨
      (m = 12 ∧ b = 334 + (if leap then 1 else 0) ∧ d ≤ 31)) :
    monthAndDay leap k = (m, d) := by
  unfold monthAndDay
  simp only
  generalize hl : (if leap = true then (1 : Int) else 0) = l at hrow ⊢
  have hl01 : l = 0 ∨ l = 1 := by
    rw [← hl]
    cases leap
    · left; rfl
    · right; rfl
  rcases hrow with ⟨hm, hb, hd⟩ | ⟨hm, hb, hd⟩ | ⟨hm, hb, hd⟩ | ⟨hm, hb, hd⟩ | ⟨hm, hb, hd⟩ |
      ⟨hm, hb, hd⟩ | ⟨hm, hb, hd⟩ | ⟨hm, hb, hd⟩ | ⟨hm, hb, hd⟩ | ⟨hm, hb, hd⟩ | ⟨hm, hb, hd⟩ |
      ⟨hm, hb, hd⟩ <;>
    (subst hm
     repeat (first | rw [if_pos (by omega)] | rw [if_neg (by omega)])
     rw [Prod.mk.injEq]
     exact ⟨rfl, by omega⟩)

theorem monthAndDay_dayOfYear (y : Int) (m d : Nat) (hm1 : 1 ≤ m) (hm12 : m ≤ 12)
    (hd1 : 1 ≤ d) (hd : d ≤ daysInMonth y m) :
    monthAndDay (isLeapYear y) ((daysBeforeMonth y m : Int) + (d - 1 : Int)) = (m, d) := by
  apply monthAndDay_of_bounds (isLeapYear y) m d (daysBeforeMonth y m) _ rfl hd1
  interval_cases m <;> cases hl : isLeapYear y <;>
    simp [daysBeforeMonth, daysInMonth, hl, List.range_succ] at hd ⊢ <;> omega

theorem calendarDate_dayNumber (y : Int) (m d : Nat) (hm1 : 1 ≤ m) (hm12 : m ≤ 12)
    (hd1 : 1 ≤ d) (hd : d ≤ daysInMonth y m) :
    calendarDate (dayNumber y m d * msPerDay) = (y, m, d) := by
  have hlt := daysBeforeMonth_add_lt y m d hm1 hm12 hd1 hd
  have hy : yearFromDay (dayNumber y m d) = y := by
    apply yearFromDay_eq
    · unfold dayNumber
      have : (0 : Int) ≤ (daysBeforeMonth y m : Int) := Int.natCast_nonneg _
      omega
    · rw [dayFromYear_succ]
      unfold dayNumber
      omega
  have hdiv : dayNumber y m d * msPerDay / msPerDay = dayNumber y m d :=
    Int.mul_ediv_cancel _ (by decide)
  unfold calendarDate
  simp only [hdiv, hy]
  have hk : dayNumber y m d - dayFromYear y = (daysBeforeMonth y m : Int) + (d - 1 : Int) := by
    unfold dayNumber
    ring
  rw [hk, monthAndDay_dayOfYear y m d hm1 hm12 hd1 hd]

/-! ### Date strings -/

theorem digit_not_whiteSpace {c : Char} (h : isAsciiDigit c = true) :
    isJsWhiteSpace c = false := by
  simp only [isAsciiDigit, Bool.and_eq_true, decide_eq_true_eq] at h
  unfold isJsWhiteSpace
  simp only [Bool.or_eq_false_iff, Bool.and_eq_false_imp, decide_eq_false_iff_not,
    decide_eq_true_eq]
  omega

theorem digit_ne_dash {c : Char} (h : isAsciiDigit c = true) : c ≠ '-' := by
  intro hc
  rw [hc] at h
  revert h
  decide

theorem digit_ne_dot {c : Char} (h : isAsciiDigit c = true) : c ≠ '.' := by
  intro hc
  rw [hc] at h
  revert h
  decide

theorem digit_ne_slash {c : Char} (h : isAsciiDigit c = true) : c ≠ '/' := by
  intro hc
  rw [hc] at h
  revert h
  decide

theorem parseDateFlexible_date_chars (host : Host) (y1 y2 y3 y4 m1 m2 d1 d2 : Char)
    (hy1 : isAsciiDigit y1 = true) (hy2 : isAsciiDigit y2 = true)
    (hy3 : isAsciiDigit y3 = true) (hy4 : isAsciiDigit y4 = true)
    (hm1 : isAsciiDigit m1 = true) (hm2 : isAsciiDigit m2 = true)
    (hd1 : isAsciiDigit d1 = true) (hd2 : isAsciiDigit d2 = true) :
    parseDateFlexible host (.str (String.mk [y1, y2, y3, y4, '-', m1, m2, '-', d1, d2]))
      = match dateOfString host [y1, y2, y3, y4, '-', m1, m2, '-', d1, d2] with
        | some t => some t
        | none =>
          dateOfString host ([y1, y2, y3, y4, '-', m1, m2, '-', d1, d2] ++ "T00:00:00".toList) := by
  have hnd : isAsciiDigit '-' = false := by decide
  have w1 := digit_not_whiteSpace hy1
  have w2 := digit_not_whiteSpace hd2
  have hdigits : isDigitString [y1, y2, y3, y4, '-', m1, m2, '-', d1, d2] = false := by
    simp [isDigitString, hnd]
  have htrim : jsTrim [y1, y2, y3, y4, '-', m1, m2, '-', d1, d2]
      = [y1, y2, y3, y4, '-', m1, m2, '-', d1, d2] := by
    simp [jsTrim, List.dropWhile, w1, w2]
  have hunify : unifySeparators [y1, y2, y3, y4, '-', m1, m2, '-', d1, d2]
      = [y1, y2, y3, y4, '-', m1, m2, '-', d1, d2] := by
    simp [unifySeparators, digit_ne_dot hy1, digit_ne_dot hy2, digit_ne_dot hy3,
      digit_ne_dot hy4, digit_ne_dot hm1, digit_ne_dot hm2, digit_ne_dot hd1, digit_ne_dot hd2,
      digit_ne_slash hy1, digit_ne_slash hy2, digit_ne_slash hy3, digit_ne_slash hy4,
      digit_ne_slash hm1, digit_ne_slash hm2, digit_ne_slash hd1, digit_ne_slash hd2]
  have hsplit : splitDash [y1, y2, y3, y4, '-', m1, m2, '-', d1, d2]
      = [[y1, y2, y3, y4], [m1, m2], [d1, d2]] := by
    simp [splitDash, splitDashAux, digit_ne_dash hy1, digit_ne_dash hy2, digit_ne_dash hy3,
      digit_ne_dash hy4, digit_ne_dash hm1, digit_ne_dash hm2, digit_ne_dash hd1,
      digit_ne_dash hd2]
  unfold parseDateFlexible
  simp only [JsValue.truthy, JsValue.isZero, JsValue.isNull, JsValue.isStrZero, String.toList,
    hdigits, htrim, hunify, hsplit]
  simp

theorem parseDateFlexible_month_chars (host : Host) (y1 y2 y3 y4 sep m1 m2 : Char)
    (hy1 : isAsciiDigit y1 = true) (hy2 : isAsciiDigit y2 = true)
    (hy3 : isAsciiDigit y3 = true) (hy4 : isAsciiDigit y4 = true)
    (hm1 : isAsciiDigit m1 = true) (hm2 : isAsciiDigit m2 = true)
    (hsep : sep = '-' ∨ sep = '.' ∨ sep = '/') :
    parseDateFlexible host (.str (String.mk [y1, y2, y3, y4, sep, m1, m2]))
      = match dateOfString host [y1, y2, y3, y4, '-', m1, m2, '-', '0', '1'] with
        | some t => some t
        | none =>
          dateOfString host
            ([y1, y2, y3, y4, '-', m1, m2, '-', '0', '1'] ++ "T00:00:00".toList) := by
  have hnd : isAsciiDigit sep = false := by
    rcases hsep with h | h | h <;> rw [h] <;> decide
  have w1 := digit_not_whiteSpace hy1
  have w2 := digit_not_whiteSpace hm2
  have hdigits : isDigitString [y1, y2, y3, y4, sep, m1, m2] = false := by
    simp [isDigitString, hnd]
  have htrim : jsTrim [y1, y2, y3, y4, sep, m1, m2] = [y1, y2, y3, y4, sep, m1, m2] := by
    simp [jsTrim, List.dropWhile, w1, w2]
  have hunify : unifySeparators [y1, y2, y3, y4, sep, m1, m2]
      = [y1, y2, y3, y4, '-', m1, m2] := by
    have hs : (if sep = '.' ∨ sep = '/' then '-' else sep) = '-' := by
      rcases hsep with h | h | h <;> rw [h] <;> decide
    simp [unifySeparators, hs, digit_ne_dot hy1, digit_ne_dot hy2, digit_ne_dot hy3,
      digit_ne_dot hy4, digit_ne_dot hm1, digit_ne_dot hm2,
      digit_ne_slash hy1, digit_ne_slash hy2, digit_ne_slash hy3, digit_ne_slash hy4,
      digit_ne_slash hm1, digit_ne_slash hm2]
  have hsplit : splitDash [y1, y2, y3, y4, '-', m1, m2] = [[y1, y2, y3, y4], [m1, m2]] := by
    simp [splitDash, splitDashAux, digit_ne_dash hy1, digit_ne_dash hy2, digit_ne_dash hy3,
      digit_ne_dash hy4, digit_ne_dash hm1, digit_ne_dash hm2]
  unfold parseDateFlexible
  simp only [JsValue.truthy, JsValue.isZero, JsValue.isNull, JsValue.isStrZero, String.toList,
    hdigits, htrim, hunify, hsplit]
  simp

theorem isoDateOnly_chars (y1 y2 y3 y4 m1 m2 d1 d2 : Char)
    (hy1 : isAsciiDigit y1 = true) (hy2 : isAsciiDigit y2 = true)
    (hy3 : isAsciiDigit y3 = true) (hy4 : isAsciiDigit y4 = true)
    (hm1 : isAsciiDigit m1 = true) (hm2 : isAsciiDigit m2 = true)
    (hd1 : isAsciiDigit d1 = true) (hd2 : isAsciiDigit d2 = true)
    (hday1 : 1 ≤ digitsValue [d1, d2])
    (hday : digitsValue [d1, d2]
      ≤ daysInMonth (digitsValue [y1, y2, y3, y4] : Nat) (digitsValue [m1, m2])) :
    isoDateOnly [y1, y2, y3, y4, '-', m1, m2, '-', d1, d2]
      = some (dayNumber (digitsValue [y1, y2, y3, y4] : Nat) (digitsValue [m1, m2])
          (digitsValue [d1, d2]) * msPerDay) := by
  have hall : isDigitString [y1, y2, y3, y4, m1, m2, d1, d2] = true := by
    simp [isDigitString, hy1, hy2, hy3, hy4, hm1, hm2, hd1, hd2]
  unfold isoDateOnly
  simp only [hall, true_and, and_self, if_true]
  rw [if_pos ⟨hday1, hday⟩]

theorem month_valid_of_daysInMonth_pos (y : Int) (m : Nat) (h : 0 < daysInMonth y m) :
    1 ≤ m ∧ m ≤ 12 := by
  by_contra hc
  have hm : m = 0 ∨ 13 ≤ m := by omega
  rcases hm with h0 | h13
  · rw [h0] at h
    simp [daysInMonth] at h
  · obtain ⟨k, hk⟩ := Nat.exists_eq_add_of_le' h13
    have hz : daysInMonth y (k + 13) = 0 := rfl
    rw [hk, hz] at h
    exact absurd h (lt_irrefl 0)

theorem daysInMonth_pos (y : Int) (m : Nat) (hm1 : 1 ≤ m) (hm12 : m ≤ 12) :
    1 ≤ daysInMonth y m := by
  interval_cases m <;> simp [daysInMonth]
  split <;> decide

/-- C11, counterexample: the ISO 8601 dates "20240229" (basic format) and "2024" (a year)
consist of digits only and are read as Unix timestamps in seconds: the results are instants
of 23 August 1970 and of 1 January 1970, not of 2024. -/
theorem digit_only_dates_read_as_timestamps :
    (parseDateFlexible strictHost (.str "20240229") = some 20240229000 ∧
      calendarDate 20240229000 = (1970, 8, 23)) ∧
    (parseDateFlexible strictHost (.str "2024") = some 2024000 ∧
      calendarDate 2024000 = (1970, 1, 1)) := by
  have h1 : parseDateFlexible strictHost (.str "20240229")
      = parseDateFlexible strictHost (.num (.fin ((20240229 : ℤ) : ℚ))) := by
    have hdig : isDigitString "20240229".toList = true := by decide
    have hval : digitsValue "20240229".toList = 20240229 := by decide
    unfold parseDateFlexible
    simp only [JsValue.truthy, JsValue.isZero, JsValue.isNull, JsValue.isStrZero, hdig, hval]
    norm_num
    intro h
    exact absurd h (by decide)
  have h2 : parseDateFlexible strictHost (.str "2024")
      = parseDateFlexible strictHost (.num (.fin ((2024 : ℤ) : ℚ))) := by
    have hdig : isDigitString "2024".toList = true := by decide
    have hval : digitsValue "2024".toList = 2024 := by decide
    unfold parseDateFlexible
    simp only [JsValue.truthy, JsValue.isZero, JsValue.isNull, JsValue.isStrZero, hdig, hval]
    norm_num
    intro h
    exact absurd h (by decide)
  refine ⟨⟨?_, by decide⟩, ?_, by decide⟩
  · rw [h1, parseDateFlexible_int, if_neg (by decide), if_neg (by decide), timeClip_intCast,
      if_neg (by decide)]
    rfl
  · rw [h2, parseDateFlexible_int, if_neg (by decide), if_neg (by decide), timeClip_intCast,
      if_neg (by decide)]
    rfl

/-- C11, amended: for every date string of the form `YYYY-MM-DD` (four-digit year,
two-digit month and day, separated by `-`) that names a valid calendar date,
`parseDateFlexible` returns an instant, not Absent, and the calendar date of that instant
in UTC is the year, month and day written in the string. -/
theorem parseDateFlexible_iso_date (host : Host) (y1 y2 y3 y4 m1 m2 d1 d2 : Char)
    (hy1 : isAsciiDigit y1 = true) (hy2 : isAsciiDigit y2 = true)
    (hy3 : isAsciiDigit y3 = true) (hy4 : isAsciiDigit y4 = true)
    (hm1 : isAsciiDigit m1 = true) (hm2 : isAsciiDigit m2 = true)
    (hd1 : isAsciiDigit d1 = true) (hd2 : isAsciiDigit d2 = true)
    (hday1 : 1 ≤ digitsValue [d1, d2])
    (hday : digitsValue [d1, d2]
      ≤ daysInMonth (digitsValue [y1, y2, y3, y4] : Nat) (digitsValue [m1, m2])) :
    ∃ t, parseDateFlexible host (.str (String.mk [y1, y2, y3, y4, '-', m1, m2, '-', d1, d2]))
        = some t ∧
      calendarDate t = (((digitsValue [y1, y2, y3, y4] : Nat) : Int), digitsValue [m1, m2],
        digitsValue [d1, d2]) := by
  have hmonth := month_valid_of_daysInMonth_pos _ _ (lt_of_lt_of_le hday1 hday)
  refine ⟨dayNumber (digitsValue [y1, y2, y3, y4] : Nat) (digitsValue [m1, m2])
    (digitsValue [d1, d2]) * msPerDay, ?_, ?_⟩
  · rw [parseDateFlexible_date_chars host y1 y2 y3 y4 m1 m2 d1 d2 hy1 hy2 hy3 hy4 hm1 hm2 hd1 hd2]
    unfold dateOfString
    rw [isoDateOnly_chars y1 y2 y3 y4 m1 m2 d1 d2 hy1 hy2 hy3 hy4 hm1 hm2 hd1 hd2 hday1 hday]
  · exact calendarDate_dayNumber _ _ _ hmonth.1 hmonth.2 hday1 hday

/-- C11, witness: the string "2024-02-29" is read as the instant 1709164800000, whose
calendar date is 29 February 2024. -/
theorem parseDateFlexible_iso_date_witness :
    ∃ t, parseDateFlexible strictHost
          (.str (String.mk ['2', '0', '2', '4', '-', '0', '2', '-', '2', '9'])) = some t ∧
      calendarDate t = (((digitsValue ['2', '0', '2', '4'] : Nat) : Int),
        digitsValue ['0', '2'], digitsValue ['2', '9']) :=
  parseDateFlexible_iso_date strictHost '2' '0' '2' '4' '0' '2' '2' '9'
    (by decide) (by decide) (by decide) (by decide) (by decide) (by decide) (by decide)
    (by decide) (by decide) (by decide)

/-- C12: for every month-only string `YYYY-MM`, also written with `.` or `/` as the
separator, with a month from 01 to 12, `parseDateFlexible` returns the instant of the first
day of that month (its calendar date in UTC is day 1 of that month and year), the same
instant as for `YYYY-MM-01`. -/
theorem parseDateFlexible_month_only (host : Host) (y1 y2 y3 y4 sep m1 m2 : Char)
    (hy1 : isAsciiDigit y1 = true) (hy2 : isAsciiDigit y2 = true)
    (hy3 : isAsciiDigit y3 = true) (hy4 : isAsciiDigit y4 = true)
    (hm1 : isAsciiDigit m1 = true) (hm2 : isAsciiDigit m2 = true)
    (hsep : sep = '-' ∨ sep = '.' ∨ sep = '/')
    (hmonth1 : 1 ≤ digitsValue [m1, m2]) (hmonth12 : digitsValue [m1, m2] ≤ 12) :
    parseDateFlexible host (.str (String.mk [y1, y2, y3, y4, sep, m1, m2]))
      = some (dayNumber (digitsValue [y1, y2, y3, y4] : Nat) (digitsValue [m1, m2]) 1
          * msPerDay) ∧
    parseDateFlexible host (.str (String.mk [y1, y2, y3, y4, sep, m1, m2]))
      = parseDateFlexible host
          (.str (String.mk [y1, y2, y3, y4, '-', m1, m2, '-', '0', '1'])) ∧
    calendarDate (dayNumber (digitsValue [y1, y2, y3, y4] : Nat) (digitsValue [m1, m2]) 1
        * msPerDay)
      = (((digitsValue [y1, y2, y3, y4] : Nat) : Int), digitsValue [m1, m2], 1) := by
  have h0 : isAsciiDigit '0' = true := by decide
  have h1 : isAsciiDigit '1' = true := by decide
  have hone : digitsValue ['0', '1'] = 1 := by decide
  have hpos := daysInMonth_pos (digitsValue [y1, y2, y3, y4] : Nat) (digitsValue [m1, m2])
    hmonth1 hmonth12
  have hiso := isoDateOnly_chars y1 y2 y3 y4 m1 m2 '0' '1' hy1 hy2 hy3 hy4 hm1 hm2 h0 h1
    (by rw [hone]) (by rw [hone]; exact hpos)
  rw [hone] at hiso
  have hshort : parseDateFlexible host (.str (String.mk [y1, y2, y3, y4, sep, m1, m2]))
      = some (dayNumber (digitsValue [y1, y2, y3, y4] : Nat) (digitsValue [m1, m2]) 1
          * msPerDay) := by
    rw [parseDateFlexible_month_chars host y1 y2 y3 y4 sep m1 m2 hy1 hy2 hy3 hy4 hm1 hm2 hsep]
    unfold dateOfString
    rw [hiso]
  have hfull : parseDateFlexible host
      (.str (String.mk [y1, y2, y3, y4, '-', m1, m2, '-', '0', '1']))
      = some (dayNumber (digitsValue [y1, y2, y3, y4] : Nat) (digitsValue [m1, m2]) 1
          * msPerDay) := by
    rw [parseDateFlexible_date_chars host y1 y2 y3 y4 m1 m2 '0' '1' hy1 hy2 hy3 hy4 hm1 hm2 h0 h1]
    unfold dateOfString
    rw [hiso]
  exact ⟨hshort, by rw [hshort, hfull],
    calendarDate_dayNumber _ _ 1 hmonth1 hmonth12 (le_refl 1) hpos⟩

/-- C12, witness: the strings "2024-03", "2024.03" and "2024/03" are all read as
1709251200000, the first instant of 1 March 2024. -/
theorem parseDateFlexible_month_only_witness :
    parseDateFlexible strictHost (.str "2024-03") = some 1709251200000 ∧
    parseDateFlexible strictHost (.str "2024.03") = some 1709251200000 ∧
    parseDateFlexible strictHost (.str "2024/03") = some 1709251200000 ∧
    parseDateFlexible strictHost (.str "2024-03")
      = parseDateFlexible strictHost (.str "2024-03-01") :=
  ⟨(parseDateFlexible_month_only strictHost '2' '0' '2' '4' '-' '0' '3' (by decide) (by decide)
      (by decide) (by decide) (by decide) (by decide) (by decide) (by decide) (by decide)).1,
    by rfl, by rfl, by rfl⟩

end ItemShow
